import Mathlib

/-!
Verification development for the plan-directory lifecycle manager
(`bootstrap.mjs`).  The tool manages a `plans/` root directory holding:
an active-plan pointer file `plans/.current_plan`, two consolidated
archives `plans/FINDINGS.md` and `plans/DECISIONS.md`, a version-control
ignore file `.gitignore` in the working directory, and one subdirectory
per plan.  Documents are plain text; the embedding models text as
`List Char` (the tool's JS strings), so that every operation is an
executable structural recursion that the kernel can evaluate.
-/

/-- Text content of a document, a list of characters. -/
abbrev Content := List Char

/-- Coerce a Lean string literal to `Content`. -/
def str (s : String) : Content := s.data

/-- Whitespace characters relevant to the documents the tool reads and
writes (models the whitespace classes used by JS `trim`/`trimEnd` on the
character set the tool itself ever produces). -/
def isWs (c : Char) : Bool := c = ' ' || c = '\n' || c = '\t' || c = '\r'

/-- JS `String.prototype.trimEnd`. -/
def trimRightL (s : Content) : Content := (s.reverse.dropWhile isWs).reverse

/-- JS `String.prototype.trim`. -/
def trimL (s : Content) : Content := (trimRightL s).dropWhile isWs

/-- Split text into its lines, exactly as JS `content.split("\n")`:
`""` gives `[""]`, a trailing newline gives a final `""` entry. -/
def splitLines : Content → List Content
  | [] => [[]]
  | c :: rest =>
    if c = '\n' then [] :: splitLines rest
    else
      match splitLines rest with
      | l :: ls => (c :: l) :: ls
      | [] => [[c]]

/-- Rejoin lines with `"\n"` separators (inverse of `splitLines`). -/
def joinLines : List Content → Content
  | [] => []
  | [l] => l
  | l :: ls => l ++ '\n' :: joinLines ls

/-- Does a line begin a second-level markdown heading (`/^## /`)? -/
def startsH2 (l : Content) : Bool := (str "## ").isPrefixOf l

/-- `stripHeader` from bootstrap.mjs: `content.search(/^## /m)` finds the
start of the first line beginning with `"## "` and the content is sliced
from there; if no such line exists the content is returned unchanged.
Since slicing at a line start equals rejoining the remaining lines, the
line-level formulation below is the same function. -/
def stripHeader (content : Content) : Content :=
  let ls := splitLines content
  if ls.any startsH2 then joinLines (ls.dropWhile (fun l => !startsH2 l))
  else content

/-- The cross-plan context pointer note seeded into fresh per-plan
decisions/findings documents when consolidated archives already exist. -/
def crossNote : Content :=
  str "*Cross-plan context: see plans/FINDINGS.md and plans/DECISIONS.md*"

/-- Fueled scanner for
`content.replace(/\n?\*Cross-plan context: ...\*\n?/g, "\n")`:
at each position the regex engine greedily takes an optional leading
newline, the literal note, and an optional trailing newline, and the
match is replaced by a single newline; otherwise the scan advances one
character.  Fuel is the remaining length, and every step consumes at
least one character. -/
def stripNoteAux : Nat → Content → Content
  | 0, s => s
  | _ + 1, [] => []
  | fuel + 1, c :: rest =>
    if ('\n' :: crossNote ++ ['\n']).isPrefixOf (c :: rest) then
      '\n' :: stripNoteAux fuel (rest.drop (crossNote.length + 1))
    else if ('\n' :: crossNote).isPrefixOf (c :: rest) then
      '\n' :: stripNoteAux fuel (rest.drop crossNote.length)
    else if (crossNote ++ ['\n']).isPrefixOf (c :: rest) then
      '\n' :: stripNoteAux fuel (rest.drop crossNote.length)
    else if crossNote.isPrefixOf (c :: rest) then
      '\n' :: stripNoteAux fuel (rest.drop (crossNote.length - 1))
    else c :: stripNoteAux fuel rest

/-- `stripCrossPlanNote` from bootstrap.mjs. -/
def stripCrossPlanNote (s : Content) : Content := stripNoteAux s.length s

/-- One line of `stripped.replace(/^## /gm, "### ")`: a line starting
with `"## "` has that prefix rewritten to `"### "`. -/
def demoteLine (l : Content) : Content :=
  if startsH2 l then str "### " ++ l.drop 3 else l

/-- `stripped.replace(/^## /gm, "### ")`: the anchor `^` with the `m`
flag makes the substitution per-line. -/
def demoteH2 (s : Content) : Content := joinLines ((splitLines s).map demoteLine)

/-- Fueled scanner for a global literal replacement
`s.replace(pat, repl)` with non-empty `pat`: leftmost matches, no
rescanning of the replacement. -/
def replaceAllAux (pat repl : Content) : Nat → Content → Content
  | 0, s => s
  | _ + 1, [] => []
  | fuel + 1, c :: rest =>
    if pat.isPrefixOf (c :: rest) then
      repl ++ replaceAllAux pat repl fuel (rest.drop (pat.length - 1))
    else c :: replaceAllAux pat repl fuel rest

/-- Global literal replacement. -/
def replaceAll (pat repl s : Content) : Content := replaceAllAux pat repl s.length s

/-- `stripped.replace(/\(findings\//g, "(" + planDirName + "/findings/")`. -/
def rewriteFindingsLinks (planDirName s : Content) : Content :=
  replaceAll (str "(findings/") ('(' :: planDirName ++ str "/findings/") s

/-- The plan-section separator `"\n## "` searched by
`existing.indexOf("\n## ")` in `prependToConsolidated`. -/
def h2sep : Content := str "\n## "

/-- Split at the first occurrence of `pat`: returns the part before the
match and the part from the match onward (the `indexOf`/`slice` pair). -/
def splitFirstAux (pat : Content) : Content → Option (Content × Content)
  | [] => none
  | c :: rest =>
    if pat.isPrefixOf (c :: rest) then some ([], c :: rest)
    else
      match splitFirstAux pat rest with
      | some (a, b) => some (c :: a, b)
      | none => none

/-- `prependToConsolidated` from bootstrap.mjs: split the existing
archive at the first `"\n## "` (everything before is the header), then
write `header + "\n\n## " + planDirName + "\n" + newSection + "\n" + body`.
When no plan section exists yet the header is the trimmed-end existing
content and the body is empty. -/
def prependToConsolidated (existing planDirName newSection : Content) : Content :=
  match splitFirstAux h2sep existing with
  | some (header, body) =>
    header ++ str "\n\n## " ++ planDirName ++ '\n' :: newSection ++ '\n' :: body
  | none =>
    trimRightL existing ++ str "\n\n## " ++ planDirName ++ '\n' :: newSection ++ ['\n']

/-- The full transformation applied to a per-plan `findings.md` before
it is prepended to `plans/FINDINGS.md` (lines 120-125 of the source):
strip the header, strip the seeded note, demote `##` to `###`, rewrite
`(findings/` links, trim. -/
def findingsTransform (planDirName content : Content) : Content :=
  trimL (rewriteFindingsLinks planDirName
    (demoteH2 (stripCrossPlanNote (stripHeader content))))

/-- The transformation applied to a per-plan `decisions.md` before it is
prepended to `plans/DECISIONS.md` (lines 134-137; no link rewriting). -/
def decisionsTransform (content : Content) : Content :=
  trimL (demoteH2 (stripCrossPlanNote (stripHeader content)))

/-- On-disk artifacts of one plan directory. -/
structure PlanDir where
  hasCheckpointsDir : Bool := false
  hasFindingsDir : Bool := false
  stateFile : Option Content := none
  planFile : Option Content := none
  decisionsFile : Option Content := none
  findingsFile : Option Content := none
  progressFile : Option Content := none
  verificationFile : Option Content := none
  findingsDetail : List (Content × Content) := []
  checkpoints : List Content := []
deriving DecidableEq

instance : Inhabited PlanDir := ⟨{}⟩

/-- The filesystem state the tool manipulates: the `plans/` root, the
pointer file (`none` models absent or unreadable; the content is stored
raw), the two consolidated archives, the plan directories (an ordered
association list name-to-contents), and the working directory
`.gitignore`. -/
structure FS where
  plansDirExists : Bool := false
  pointer : Option Content := none
  findingsArch : Option Content := none
  decisionsArch : Option Content := none
  planDirs : List (Content × PlanDir) := []
  gitignore : Option Content := none
deriving DecidableEq

/-- Association-list lookup of a plan directory by name. -/
def lookupPlan (l : List (Content × PlanDir)) (n : Content) : Option PlanDir :=
  match l with
  | [] => none
  | (k, v) :: t => if k = n then some v else lookupPlan t n

/-- Insert or replace a plan directory entry. -/
def setPlan (l : List (Content × PlanDir)) (n : Content) (v : PlanDir) :
    List (Content × PlanDir) :=
  match l with
  | [] => [(n, v)]
  | (k, w) :: t => if k = n then (n, v) :: t else (k, w) :: setPlan t n v

/-- Remove a plan directory entry (`rmSync(planDir, {recursive: true})`). -/
def removePlan (l : List (Content × PlanDir)) (n : Content) :
    List (Content × PlanDir) :=
  l.filter (fun kv => !(kv.1 == n))

/-- `existsSync(join(plansDir, name))` for a plan directory name. -/
def planExists (fs : FS) (n : Content) : Bool := (lookupPlan fs.planDirs n).isSome

/-- `readPointer` from bootstrap.mjs: read and trim the pointer file;
the result is `none` when the file is absent or unreadable (the
`try/catch`), when the trimmed content is empty, or when no directory of
that name exists under the plans root. -/
def readPointer (fs : FS) : Option Content :=
  match fs.pointer with
  | none => none
  | some raw =>
    let name := trimL raw
    if !name.isEmpty && planExists fs name then some name else none

/-- `readPlanFile`: read one named file inside a plan directory,
`none` on any failure. -/
def readPlanFile (fs : FS) (planDirName : Content) (file : PlanDir → Option Content) :
    Option Content :=
  match lookupPlan fs.planDirs planDirName with
  | none => none
  | some d => file d

/-- Initial content of `plans/FINDINGS.md`. -/
def consolidatedFindingsSeed : Content :=
  str "# Consolidated Findings\n*Cross-plan findings archive. Entries merged from per-plan findings.md on close. Newest first.*\n"

/-- Initial content of `plans/DECISIONS.md`. -/
def consolidatedDecisionsSeed : Content :=
  str "# Consolidated Decisions\n*Cross-plan decision archive. Entries merged from per-plan decisions.md on close. Newest first.*\n"

/-- `ensureConsolidatedFiles`: create either archive with its header
preamble if it does not exist; existing archives are untouched. -/
def ensureConsolidatedFiles (fs : FS) : FS :=
  { fs with
    findingsArch := some (fs.findingsArch.getD consolidatedFindingsSeed)
    decisionsArch := some (fs.decisionsArch.getD consolidatedDecisionsSeed) }

/-- First half of `mergeToConsolidated`: merge the per-plan
`findings.md` into `plans/FINDINGS.md` when it has non-empty content and
a non-empty transformed section. -/
def mergeFindingsStep (fs : FS) (planDirName : Content) : FS :=
  match readPlanFile fs planDirName PlanDir.findingsFile with
  | none => fs
  | some c =>
    if c.isEmpty then fs
    else
      let stripped := findingsTransform planDirName c
      if stripped.isEmpty then fs
      else
        let arch := prependToConsolidated (fs.findingsArch.getD []) planDirName stripped
        { fs with findingsArch := some arch }

/-- Second half of `mergeToConsolidated`: merge the per-plan
`decisions.md` into `plans/DECISIONS.md`. -/
def mergeDecisionsStep (fs : FS) (planDirName : Content) : FS :=
  match readPlanFile fs planDirName PlanDir.decisionsFile with
  | none => fs
  | some c =>
    if c.isEmpty then fs
    else
      let stripped := decisionsTransform c
      if stripped.isEmpty then fs
      else
        let arch := prependToConsolidated (fs.decisionsArch.getD []) planDirName stripped
        { fs with decisionsArch := some arch }

/-- `mergeToConsolidated`: findings first, then decisions. -/
def mergeToConsolidated (fs : FS) (planDirName : Content) : FS :=
  mergeDecisionsStep (mergeFindingsStep fs planDirName) planDirName

/-- Result of one command invocation: final filesystem, stdout lines,
stderr lines, exit code. -/
structure CmdResult where
  fs : FS
  out : List Content
  err : List Content
  exit : Nat
deriving DecidableEq

/-- The effects of `close`'s `try` block up to a failure point:
step 0 ensures the archives, step 1 merges findings, step 2 merges
decisions; `steps` of them complete. -/
def closeApply (planDirName : Content) (steps : Nat) (fs : FS) : FS :=
  let fs1 := if 1 ≤ steps then ensureConsolidatedFiles fs else fs
  let fs2 := if 2 ≤ steps then mergeFindingsStep fs1 planDirName else fs1
  if 3 ≤ steps then mergeDecisionsStep fs2 planDirName else fs2

/-- `cmdClose`.  `mergeFailAt = some k` models the consolidation `try`
block throwing at its `k`-th step (the catch downgrades this to a
warning unless silent); `none` models merge success.  The pointer is
removed afterwards in every case, tolerating prior absence. -/
def cmdClose (fs : FS) (silent : Bool) (mergeFailAt : Option Nat) : CmdResult :=
  match readPointer fs with
  | none =>
    if silent then ⟨fs, [], [], 0⟩
    else ⟨fs, [], [str "ERROR: No active plan to close."], 1⟩
  | some planDirName =>
    let steps := match mergeFailAt with | none => 3 | some k => min k 3
    let fs1 := closeApply planDirName steps fs
    let fs2 := { fs1 with pointer := none }
    let warns : List Content :=
      match mergeFailAt with
      | none => []
      | some _ =>
        if silent then []
        else [str "WARNING: Merge to consolidated files failed.",
              str "  Per-plan files remain intact at plans/" ++ planDirName ++ str "/"]
    let outs : List Content :=
      if silent then [str "  Closed previous plan: plans/" ++ planDirName]
      else
        [str "Closed plan: plans/" ++ planDirName,
         str "  Pointer plans/.current_plan removed.",
         str "  Plan directory preserved at plans/" ++ planDirName ++ str "/",
         str "  Findings/decisions merged to plans/FINDINGS.md and plans/DECISIONS.md.",
         str "  Note: This is an administrative close. The protocol CLOSE state",
         str "  (summary.md, decision audit) should be completed by the agent first."]
    ⟨fs2, outs, warns, 0⟩

/-- The cross-plan context note as seeded (with surrounding newlines)
into fresh per-plan documents when consolidated archives already exist. -/
def crossPlanNoteSeed : Content :=
  str "\n*Cross-plan context: see plans/FINDINGS.md and plans/DECISIONS.md*\n"

/-- Template of a fresh `state.md` (timestamp interpolated). -/
def stateTemplate (timestamp : Content) : Content :=
  str "# Current State: EXPLORE\n## Iteration: 0\n## Current Plan Step: N/A\n## Pre-Step Checklist (reset before each EXECUTE step)\n- [ ] Re-read state.md (this file)\n- [ ] Re-read plan.md\n- [ ] Re-read progress.md\n- [ ] Re-read decisions.md (if fix attempt)\n- [ ] Checkpoint created (if risky step or irreversible op)\n## Fix Attempts (resets per plan step)\n- (none yet)\n## Change Manifest (current iteration)\n- (no changes yet)\n## Last Transition: INIT → EXPLORE ("
    ++ timestamp ++ str ")\n## Transition History:\n- INIT → EXPLORE (task started)\n"

/-- Template of a fresh `plan.md` (goal interpolated). -/
def planTemplate (goal : Content) : Content :=
  str "# Plan v0\n\n## Goal\n" ++ goal ++
    str "\n\n## Problem Statement\n*To be defined during PLAN. (1) Expected behavior, (2) invariants, (3) edge cases.*\n\n## Context\n*Pending EXPLORE phase. Findings will inform the approach.*\n\n## Files To Modify\n*To be determined after EXPLORE. List every file that will be touched.*\n\n## Steps\n*To be determined after EXPLORE.*\n\n## Failure Modes\n*To be determined during PLAN. For each dependency/integration: what if slow, garbage, down?*\n\n## Risks\n*To be determined after EXPLORE.*\n\n## Success Criteria\n*To be defined before first EXECUTE.*\n\n## Complexity Budget\n- Files added: 0/3 max\n- New abstractions (classes/modules/interfaces): 0/2 max\n- Lines added vs removed: +0/-0 (target: net negative or neutral)\n"

/-- Template of a fresh `decisions.md` (cross-plan note interpolated,
possibly empty). -/
def decisionsTemplate (note : Content) : Content :=
  str "# Decision Log\n*Append-only. Never edit past entries.*\n" ++ note

/-- Template of a fresh `findings.md` (cross-plan note interpolated,
possibly empty). -/
def findingsTemplate (note : Content) : Content :=
  str "# Findings\n*Summary and index of all findings. Detailed files go in findings/ directory.*\n"
    ++ note ++
    str "\n## Index\n*To be populated during EXPLORE.*\n\n## Key Constraints\n*To be populated during EXPLORE.*\n"

/-- Template of a fresh `progress.md`. -/
def progressTemplate : Content :=
  str "# Progress\n\n## Completed\n*Nothing yet.*\n\n## In Progress\n- [ ] EXPLORE: Initial context gathering\n\n## Remaining\n*To be populated from plan.md after PLAN phase.*\n\n## Blocked\n*Nothing currently.*\n"

/-- Template of a fresh `verification.md`. -/
def verificationTemplate : Content :=
  str "# Verification Results\n*Populated during PLAN (template), updated during EXECUTE (per-step), completed during REFLECT (full pass).*\n*Rewritten each iteration — not append-only.*\n\n## Criteria Verification\n| # | Criterion (from plan.md) | Method | Command/Action | Result | Evidence |\n|---|--------------------------|--------|----------------|--------|----------|\n| *To be populated from plan.md Success Criteria + Verification Strategy during PLAN.* ||||||\n\n## Additional Checks\n*Optional: lint, type checks, behavioral diffs, smoke tests.*\n\n## Verdict\n*To be completed during REFLECT.*\n"

/-- Apply a function to a plan directory entry, creating it with empty
defaults first when absent (`mkdirSync`-then-`writeFileSync` shape). -/
def updatePlan (fs : FS) (n : Content) (f : PlanDir → PlanDir) : FS :=
  { fs with planDirs := setPlan fs.planDirs n (f ((lookupPlan fs.planDirs n).getD {})) }

/-- The `i`-th operation of `cmdNew`'s creation `try` block: the two
`mkdirSync` calls, the six template writes, then
`ensureConsolidatedFiles` (the atomic pointer write is modelled
separately as the block's final operation). -/
def creationStep (goal timestamp note newName : Content) (i : Nat) (fs : FS) : FS :=
  match i with
  | 0 => updatePlan fs newName (fun p => { p with hasCheckpointsDir := true })
  | 1 => updatePlan fs newName (fun p => { p with hasFindingsDir := true })
  | 2 => updatePlan fs newName (fun p => { p with stateFile := some (stateTemplate timestamp) })
  | 3 => updatePlan fs newName (fun p => { p with planFile := some (planTemplate goal) })
  | 4 => updatePlan fs newName (fun p => { p with decisionsFile := some (decisionsTemplate note) })
  | 5 => updatePlan fs newName (fun p => { p with findingsFile := some (findingsTemplate note) })
  | 6 => updatePlan fs newName (fun p => { p with progressFile := some progressTemplate })
  | 7 => updatePlan fs newName (fun p => { p with verificationFile := some verificationTemplate })
  | _ => ensureConsolidatedFiles fs

/-- Run the first `k` creation steps (of the nine before the pointer
write). -/
def runCreation (goal timestamp note newName : Content) : Nat → FS → FS
  | 0, fs => fs
  | k + 1, fs => creationStep goal timestamp note newName k (runCreation goal timestamp note newName k fs)

/-- The ignore pattern `"plans/"` ensured in `.gitignore`. -/
def gitignorePattern : Content := str "plans/"

/-- `ensureGitignore` from bootstrap.mjs, as a pure function on the
current `.gitignore` content (absent file reads as `""`): when no line
trims to the pattern, append it (with a separating newline when the
existing content is non-empty and lacks a trailing one); otherwise leave
the content untouched. -/
def ensureGitignore (content : Content) : Content :=
  if (splitLines content).any (fun line => trimL line == gitignorePattern) then content
  else
    content ++ (if !content.isEmpty && !(content.getLast? == some '\n') then ['\n'] else [])
      ++ gitignorePattern ++ ['\n']

/-- The creation phase of `cmdNew`, entered after the active-plan checks
(and after the silent close under `--force`): run the `try` block's
steps, on failure clean up the partial directory and restore or clear
the pointer, on success write the pointer and idempotently update the
ignore file.  `preOut`/`preErr` carry the messages already produced by
the checks and the silent close. -/
def cmdNewCreate (fsC : FS) (goal timestamp newName : Content)
    (previousPlan : Option Content) (preOut preErr : List Content)
    (failAt : Option Nat) (gitignoreFails : Bool) : CmdResult :=
  let hasCons := fsC.findingsArch.isSome || fsC.decisionsArch.isSome
  let note := if hasCons then crossPlanNoteSeed else []
  match failAt with
  | some k =>
    let fsMid := runCreation goal timestamp note newName (min k 9) fsC
    let fsCleaned := { fsMid with
      planDirs := removePlan fsMid.planDirs newName
      pointer := previousPlan }
    let restoreMsg : List Content :=
      match previousPlan with
      | some p => [str "WARNING: Restored pointer to previous plan: plans/" ++ p]
      | none => []
    ⟨fsCleaned, preOut,
      preErr ++ restoreMsg ++ [str "ERROR: Failed to create plan directory."], 1⟩
  | none =>
    let fsFull := runCreation goal timestamp note newName 9 fsC
    let fsG := if gitignoreFails then { fsFull with pointer := some newName }
      else { fsFull with
        pointer := some newName
        gitignore := some (ensureGitignore (fsFull.gitignore.getD [])) }
    let gitWarns : List Content :=
      if gitignoreFails then
        [str "WARNING: Plan created but .gitignore update failed.",
         str "  Manually add plans/ to .gitignore."]
      else []
    ⟨fsG,
      preOut ++
        [str "Initialized plans/" ++ newName ++ str "/",
         str "  Pointer: plans/.current_plan -> " ++ newName,
         str "  Goal: " ++ goal,
         str "  State: EXPLORE (iteration 0)",
         str "  Cross-plan context: plans/FINDINGS.md, plans/DECISIONS.md",
         str "  Next: Read code, ask questions, write findings."],
      preErr ++ gitWarns, 0⟩

/-- `cmdNew`.  Nondeterministic inputs are explicit parameters: the
generated directory name and timestamp, whether one of the creation
steps throws (`failAt`, with `none` meaning full success; `some k`
fails on step `k`, `k = 9` being the pointer write), whether the silent
close performed under `--force` has a merge failure, and whether the
final `ensureGitignore` throws. -/
def cmdNew (fs0 : FS) (goal timestamp newName : Content) (force : Bool)
    (failAt : Option Nat) (closeFailAt : Option Nat) (gitignoreFails : Bool) :
    CmdResult :=
  let fs := { fs0 with plansDirExists := true }
  let active := readPointer fs
  let allPlans := (fs.planDirs.map Prod.fst).filter (fun n => (str "plan_").isPrefixOf n)
  let orphans := allPlans.filter (fun n => !(some n == active))
  let orphanWarns : List Content :=
    if !orphans.isEmpty && active.isNone then
      (str "WARNING: Found plan directories with no active pointer:")
        :: orphans.map (fun o => str "  plans/" ++ o)
        ++ [str "  These may be from a previous crash. Use list to inspect."]
    else []
  if active.isSome && !force then
    ⟨fs, [],
      orphanWarns ++
        [str "ERROR: Active plan directory already exists: plans/" ++ active.getD [],
         str "  To resume / view status / close / force, see usage."], 1⟩
  else
    let closeRes := if active.isSome then cmdClose fs true closeFailAt else ⟨fs, [], [], 0⟩
    let previousPlan := if force then active else none
    cmdNewCreate closeRes.fs goal timestamp newName previousPlan closeRes.out
      (orphanWarns ++ closeRes.err) failAt gitignoreFails

/-- `extractField` for the line-anchored patterns
`/^PRE\s*(.+)$/m` of bootstrap.mjs together with `match[1].trim()`: the
first line starting with the literal prefix yields the trimmed rest of
that line (`none` on absent content or no matching line). -/
def extractAfter (pre : Content) (content : Option Content) : Option Content :=
  match content with
  | none => none
  | some c =>
    (splitLines c).findSome?
      (fun l => if pre.isPrefixOf l then some (trimL (l.drop pre.length)) else none)

/-- JS `x || fallback` on an extracted field: `null` and the empty
string both fall back. -/
def orElseStr (v : Option Content) (fb : Content) : Content :=
  match v with
  | some s => if s.isEmpty then fb else s
  | none => fb

/-- The goal extraction `/\n## Goal\s*\n([\s\S]+?)(?=\n## |$)/` with
`match[1].trim()`, for documents where `## Goal` sits on its own line
(the shape the tool itself writes): the text between the `## Goal` line
and the next plan-section heading (or the end), trimmed. -/
def extractGoal (content : Option Content) : Option Content :=
  match content with
  | none => none
  | some c =>
    match splitFirstAux (str "\n## Goal\n") c with
    | none => none
    | some (_, rest) =>
      let after := rest.drop (str "\n## Goal\n").length
      let captured :=
        match splitFirstAux h2sep after with
        | some (a, _) => a
        | none => after
      some (trimL captured)

/-- Lexicographic Bool comparison on text, for the `.sort()` calls. -/
def contentLe : Content → Content → Bool
  | [], _ => true
  | _ :: _, [] => false
  | a :: as, b :: bs => a < b || (a = b && contentLe as bs)

/-- Insertion step of `sortContents`. -/
def insertSorted (x : Content) : List Content → List Content
  | [] => [x]
  | y :: t => if contentLe x y then x :: y :: t else y :: insertSorted x t

/-- Insertion sort modelling JS `Array.prototype.sort` on names. -/
def sortContents : List Content → List Content
  | [] => []
  | x :: t => insertSorted x (sortContents t)

/-- Nat rendered as text for interpolated counts. -/
def natToContent (n : Nat) : Content := (toString n).data

/-- `cmdStatus`: one summary line, or a fixed idle message; always
exits zero and never writes. -/
def cmdStatus (fs : FS) : CmdResult :=
  match readPointer fs with
  | none => ⟨fs, [str "No active plan."], [], 0⟩
  | some planDirName =>
    let state := readPlanFile fs planDirName PlanDir.stateFile
    let plan := readPlanFile fs planDirName PlanDir.planFile
    let currentState := orElseStr (extractAfter (str "# Current State:") state) (str "UNKNOWN")
    let iteration := orElseStr (extractAfter (str "## Iteration:") state) (str "?")
    let step := orElseStr (extractAfter (str "## Current Plan Step:") state) (str "N/A")
    let goal := orElseStr (extractGoal plan) (str "?")
    ⟨fs,
      [str "[" ++ currentState ++ str "] iter=" ++ iteration ++ str " step=" ++ step
        ++ str " | " ++ ((splitLines goal).headD []).take 60 ++ str " | plans/" ++ planDirName],
      [], 0⟩

/-- `cmdResume`: the full re-entry report; errors (exit 1) when no
active plan; never writes. -/
def cmdResume (fs : FS) : CmdResult :=
  match readPointer fs with
  | none => ⟨fs, [], [str "ERROR: No active plan. Use new to create one."], 1⟩
  | some planDirName =>
    let state := readPlanFile fs planDirName PlanDir.stateFile
    let plan := readPlanFile fs planDirName PlanDir.planFile
    let progress := readPlanFile fs planDirName PlanDir.progressFile
    let decisions := readPlanFile fs planDirName PlanDir.decisionsFile
    let currentState := orElseStr (extractAfter (str "# Current State:") state) (str "UNKNOWN")
    let iteration := orElseStr (extractAfter (str "## Iteration:") state) (str "?")
    let step := orElseStr (extractAfter (str "## Current Plan Step:") state) (str "N/A")
    let lastTransition := orElseStr (extractAfter (str "## Last Transition:") state) (str "?")
    let goal := orElseStr (extractGoal plan) (str "No goal found")
    let progressLine : List Content :=
      match progress with
      | none => []
      | some p =>
        let done := ((splitLines p).filter (fun l => (str "- [x]").isPrefixOf l && 6 ≤ l.length)).length
        let remaining := ((splitLines p).filter (fun l => (str "- [ ]").isPrefixOf l && 6 ≤ l.length)).length
        [str "  Progress:   " ++ natToContent done ++ str " done, "
          ++ natToContent remaining ++ str " remaining"]
    let decisionLine : List Content :=
      match decisions with
      | none => []
      | some d =>
        let n := ((splitLines d).filter (fun l =>
          (str "## D-").isPrefixOf l &&
            (match (l.drop 5).head? with | some c => c.isDigit | none => false))).length
        if 0 < n then [str "  Decisions:  " ++ natToContent n ++ str " logged"] else []
    let cps := sortContents (((lookupPlan fs.planDirs planDirName).getD {}).checkpoints.filter
      (fun f => (str ".md").isSuffixOf f))
    let cpLines : List Content :=
      if cps.isEmpty then [[], str "  Checkpoints: none"]
      else ([] : Content) :: (str "  Checkpoints (" ++ natToContent cps.length ++ str "):")
        :: cps.map (fun cp => str "    " ++ cp ++ str " -> plans/" ++ planDirName
          ++ str "/checkpoints/" ++ cp)
    ⟨fs,
      [str "Resuming plans/" ++ planDirName ++ str "/",
       str "  State:      " ++ currentState,
       str "  Iteration:  " ++ iteration,
       str "  Step:       " ++ step,
       str "  Goal:       " ++ (splitLines goal).headD [],
       str "  Last:       " ++ lastTransition,
       []] ++ progressLine ++ decisionLine ++ cpLines ++
      [[],
       str "  Recovery files:",
       str "    state.md     -> plans/" ++ planDirName ++ str "/state.md",
       str "    plan.md      -> plans/" ++ planDirName ++ str "/plan.md",
       str "    decisions.md -> plans/" ++ planDirName ++ str "/decisions.md",
       str "    progress.md  -> plans/" ++ planDirName ++ str "/progress.md",
       str "    findings.md  -> plans/" ++ planDirName ++ str "/findings.md",
       [],
       str "  Consolidated context:",
       str "    plans/FINDINGS.md  — cross-plan findings archive",
       str "    plans/DECISIONS.md — cross-plan decision archive"],
      [], 0⟩

/-- `cmdList`: enumerate plan directories; always exits zero and never
writes. -/
def cmdList (fs : FS) : CmdResult :=
  if !fs.plansDirExists then ⟨fs, [str "No plans/ directory found."], [], 0⟩
  else
    let active := readPointer fs
    let entries := sortContents
      ((fs.planDirs.map Prod.fst).filter (fun n => (str "plan_").isPrefixOf n))
    if entries.isEmpty then ⟨fs, [str "No plan directories found."], [], 0⟩
    else
      ⟨fs,
        (str "Plan directories in plans/ (" ++ natToContent entries.length ++ str " total):")
          :: entries.map (fun name =>
            let marker := if some name == active then str " <- active" else []
            let state := readPlanFile fs name PlanDir.stateFile
            let plan := readPlanFile fs name PlanDir.planFile
            let currentState := orElseStr (extractAfter (str "# Current State:") state) (str "?")
            let goal := orElseStr (extractGoal plan) (str "?")
            str "  " ++ name ++ str "  [" ++ currentState ++ str "] "
              ++ ((splitLines goal).headD []).take 60 ++ marker),
        [], 0⟩

/-- Substring occurrence test. -/
def containsSub (pat : Content) : Content → Bool
  | [] => pat.isEmpty
  | c :: rest => pat.isPrefixOf (c :: rest) || containsSub pat rest

/-- A run of `k` newline characters. -/
def nlRep (k : Nat) : Content := List.replicate k '\n'

/-- The archive block contributed by one merged plan: the plan-section
heading naming the plan directory followed by the transformed content,
as `prependToConsolidated` lays it out. -/
def planSection (name sec : Content) : Content :=
  str "\n## " ++ name ++ '\n' :: sec ++ ['\n']

/-- The external caller authors the per-plan findings and decisions
documents of a plan (overwriting the templates). -/
def authorPlan (fs : FS) (n fc dc : Content) : FS :=
  updatePlan fs n (fun p => { p with findingsFile := some fc, decisionsFile := some dc })

/-- One whole plan lifecycle round driven by the tool: `new` (creating
plan directory `p.1`), then the caller authors findings `p.2.1` and
decisions `p.2.2`, then `close`. -/
def createAuthorClose (goal ts : Content) (fs : FS) (p : Content × Content × Content) : FS :=
  (cmdClose
    (authorPlan (cmdNew fs goal ts p.1 false none none false).fs p.1 p.2.1 p.2.2)
    false none).fs

/-- A sequence of created-then-closed plans, in order. -/
def runCycles (goal ts : Content) (fs : FS) (ps : List (Content × Content × Content)) : FS :=
  ps.foldl (createAuthorClose goal ts) fs

/-- Newest-first concatenation of the findings plan sections of a run. -/
def findingsSections (ps : List (Content × Content × Content)) : Content :=
  (ps.reverse.map (fun p => planSection p.1 (findingsTransform p.1 p.2.1))).flatten

/-- Newest-first concatenation of the decisions plan sections of a run. -/
def decisionsSections (ps : List (Content × Content × Content)) : Content :=
  (ps.reverse.map (fun p => planSection p.1 (decisionsTransform p.2.2))).flatten

/-- Observable agreement of two command results: same stdout, stderr and
exit code, and the same filesystem in every component other than the raw
bytes of a pointer file neither run touched — which still reads the same
through `readPointer`. -/
def sameEffects (r1 r2 : CmdResult) : Prop :=
  r1.out = r2.out ∧ r1.err = r2.err ∧ r1.exit = r2.exit ∧
  r1.fs.planDirs = r2.fs.planDirs ∧ r1.fs.findingsArch = r2.fs.findingsArch ∧
  r1.fs.decisionsArch = r2.fs.decisionsArch ∧ r1.fs.gitignore = r2.fs.gitignore ∧
  r1.fs.plansDirExists = r2.fs.plansDirExists ∧ readPointer r1.fs = readPointer r2.fs

/-- The data-model invariant: whenever the pointer file is present with
non-empty (trimmed) content, the plan directory it names exists under
the plans root. -/
def PointerInv (fs : FS) : Prop :=
  ∀ raw, fs.pointer = some raw → trimL raw ≠ [] → planExists fs (trimL raw) = true

/-- Does the content contain a second-level heading line at all? -/
def hasH2 (content : Content) : Bool := (splitLines content).any startsH2

/-- Modelled from the spec: "extract only the portion from the first
second-level heading onward" — the lines from the first `"## "`-line on
(and nothing when there is no such line). -/
def fromFirstH2 (content : Content) : Content :=
  joinLines ((splitLines content).dropWhile (fun l => !startsH2 l))

/-- Count of ignore-file lines whose trimmed text is the plans-root
pattern. -/
def countPatternLines (content : Content) : Nat :=
  ((splitLines content).filter (fun line => trimL line == gitignorePattern)).length

/-- The fixed header of the consolidated findings archive (its seed
without the trailing newline). -/
def findingsArchHeader : Content := trimRightL consolidatedFindingsSeed

/-- The fixed header of the consolidated decisions archive. -/
def decisionsArchHeader : Content := trimRightL consolidatedDecisionsSeed

/-- A small concrete filesystem with one active plan, used to witness
the close-related theorems. -/
def sampleActiveFS : FS :=
  { pointer := some (str "plan_x"), planDirs := [(str "plan_x", {})], plansDirExists := true }

/-! ### Lemmas: the plan-section separator and archive splitting -/

theorem h2sep_eq : h2sep = ['\n', '#', '#', ' '] := rfl

theorem containsSub_append_right (pat x s : Content) (hs : pat.isPrefixOf s = true) :
    containsSub pat (x ++ s) = true := by
  induction x with
  | nil =>
    cases s with
    | nil =>
      cases pat with
      | nil => simp [containsSub]
      | cons p ps => simp [List.isPrefixOf] at hs
    | cons c rest => simp [containsSub, hs]
  | cons c x' ih => simp [containsSub, ih]

theorem splitFirstAux_append (pat x y : Content)
    (h : ∀ x1 c x2, x = x1 ++ c :: x2 → pat.isPrefixOf (c :: (x2 ++ y)) = false) :
    splitFirstAux pat (x ++ y) =
      (splitFirstAux pat y).map (fun ab => (x ++ ab.1, ab.2)) := by
  induction x with
  | nil =>
    simp only [List.nil_append]
    cases hy : splitFirstAux pat y with
    | none => simp
    | some ab => simp
  | cons c x' ih =>
    have hc : pat.isPrefixOf (c :: (x' ++ y)) = false := h [] c x' rfl
    have ih' := ih (fun x1 d x2 hx => h (c :: x1) d x2 (by simp [hx]))
    simp only [List.cons_append, splitFirstAux, List.append_eq]
    split
    · rename_i hp
      rw [hp] at hc
      simp at hc
    · rw [ih']
      cases hy : splitFirstAux pat y with
      | none => simp
      | some ab => simp

theorem no_match_nl_tail (x2 body : Content)
    (hx2 : ∀ e ∈ x2, e = '\n')
    (hb : body = [] ∨ h2sep.isPrefixOf body = true) :
    h2sep.isPrefixOf ('\n' :: (x2 ++ body)) = false := by
  cases x2 with
  | nil =>
    rcases hb with hb | hb
    · subst hb; simp [h2sep_eq, List.isPrefixOf]
    · cases body with
      | nil => simp [h2sep_eq, List.isPrefixOf]
      | cons b bs =>
        have hbn : b = '\n' := by
          simp [h2sep_eq, List.isPrefixOf] at hb
          exact hb.1.symm
        subst hbn
        simp [h2sep_eq, List.isPrefixOf]
  | cons e x2' =>
    have he : e = '\n' := hx2 e (List.mem_cons_self e x2')
    subst he
    simp [h2sep_eq, List.isPrefixOf]

theorem no_match_header (T body : Content) (k : Nat)
    (hT : containsSub h2sep T = false) (hk : 1 ≤ k)
    (hb : body = [] ∨ h2sep.isPrefixOf body = true) :
    ∀ x1 c x2, T ++ nlRep k = x1 ++ c :: x2 →
      h2sep.isPrefixOf (c :: (x2 ++ body)) = false := by
  intro x1 c x2 hx
  obtain ⟨k', rfl⟩ : ∃ k', k = k' + 1 := ⟨k - 1, (Nat.succ_pred_eq_of_pos hk).symm⟩
  rcases List.append_eq_append_iff.mp hx with ⟨a', hx1, hnl⟩ | ⟨c', hT2, hcx⟩
  · -- the candidate match starts inside the newline run
    have hmem : ∀ e ∈ c :: x2, e = '\n' := by
      intro e he
      have hmem' : e ∈ nlRep (k' + 1) := by
        rw [hnl]
        exact List.mem_append_right a' he
      exact List.eq_of_mem_replicate hmem'
    have hc : c = '\n' := hmem c (List.mem_cons_self c x2)
    subst hc
    exact no_match_nl_tail x2 body (fun e he => hmem e (List.mem_cons_of_mem _ he)) hb
  · cases c' with
    | nil =>
      -- degenerate split at the boundary: the tail is the whole newline run
      simp only [List.nil_append] at hcx
      have hmem : ∀ e ∈ c :: x2, e = '\n' := by
        intro e he
        have hmem' : e ∈ nlRep (k' + 1) := by rw [← hcx]; exact he
        exact List.eq_of_mem_replicate hmem'
      have hc : c = '\n' := hmem c (List.mem_cons_self c x2)
      subst hc
      exact no_match_nl_tail x2 body (fun e he => hmem e (List.mem_cons_of_mem _ he)) hb
    | cons d c'' =>
      -- the candidate match starts inside the header text T
      simp only [List.cons_append] at hcx
      injection hcx with hcd hx2
      subst hcd
      subst hx2
      cases hpre : h2sep.isPrefixOf (c :: (c'' ++ nlRep (k' + 1) ++ body)) with
      | false => rfl
      | true =>
        exfalso
        cases c'' with
        | nil =>
          rw [h2sep_eq] at hpre
          simp [List.isPrefixOf, nlRep, List.replicate_succ] at hpre
        | cons d1 c3 =>
          cases c3 with
          | nil =>
            rw [h2sep_eq] at hpre
            simp [List.isPrefixOf, nlRep, List.replicate_succ] at hpre
          | cons d2 c4 =>
            cases c4 with
            | nil =>
              rw [h2sep_eq] at hpre
              simp [List.isPrefixOf, nlRep, List.replicate_succ] at hpre
            | cons d3 c5 =>
              rw [h2sep_eq] at hpre
              simp [List.isPrefixOf] at hpre
              obtain ⟨h1, h2, h3, h4⟩ := hpre
              subst h1
              subst h2
              subst h3
              subst h4
              have hcont : containsSub h2sep T = true := by
                rw [hT2]
                refine containsSub_append_right h2sep x1 _ ?_
                rw [h2sep_eq]
                simp [List.isPrefixOf]
              rw [hcont] at hT
              exact Bool.noConfusion hT

theorem str_sep2 : str "\n\n## " = '\n' :: h2sep := rfl

theorem planSection_eq (name sec : Content) :
    planSection name sec = h2sep ++ name ++ '\n' :: sec ++ ['\n'] := rfl

theorem dropWhile_replicate_append (p : Char → Bool) (a : Char) (k : Nat) (l : Content)
    (hp : p a = true) :
    (List.replicate k a ++ l).dropWhile p = l.dropWhile p := by
  induction k with
  | zero => simp
  | succ n ih => simp [List.replicate_succ, List.dropWhile, hp, ih]

theorem trimRightL_append_nl (T : Content) (k : Nat) (cT : Char)
    (hl : T.getLast? = some cT) (hws : isWs cT = false) :
    trimRightL (T ++ nlRep k) = T := by
  unfold trimRightL
  rw [List.reverse_append]
  have hrev : (nlRep k).reverse = List.replicate k '\n' := by
    simp [nlRep, List.reverse_replicate]
  rw [hrev, dropWhile_replicate_append isWs '\n' k T.reverse rfl]
  have hhead : T.reverse.head? = some cT := by
    rw [← List.getLast?_eq_head?_reverse]
    exact hl
  cases hR : T.reverse with
  | nil => rw [hR] at hhead; simp at hhead
  | cons c t =>
    rw [hR] at hhead
    simp only [List.head?_cons, Option.some.injEq] at hhead
    subst hhead
    rw [List.dropWhile_cons_of_neg (by simp [hws])]
    rw [← hR, List.reverse_reverse]

theorem prepend_step (T body name sec : Content) (k : Nat)
    (hT : containsSub h2sep T = false) (hk : 1 ≤ k)
    (hbody : h2sep.isPrefixOf body = true) :
    prependToConsolidated (T ++ nlRep k ++ body) name sec
      = T ++ nlRep (k + 1) ++ planSection name sec ++ body := by
  have hsplit := splitFirstAux_append h2sep (T ++ nlRep k) body
    (no_match_header T body k hT hk (Or.inr hbody))
  have hbody' : splitFirstAux h2sep body = some ([], body) := by
    cases body with
    | nil => rw [h2sep_eq] at hbody; simp [List.isPrefixOf] at hbody
    | cons b bs => simp [splitFirstAux, hbody]
  unfold prependToConsolidated
  rw [hsplit, hbody']
  simp only [Option.map_some', List.append_nil]
  rw [str_sep2, planSection_eq]
  have hnl : nlRep (k + 1) = nlRep k ++ ['\n'] := by
    simp [nlRep, List.replicate_succ']
  rw [hnl]
  simp [List.append_assoc, h2sep_eq]

theorem prepend_fresh (T name sec : Content) (k : Nat) (cT : Char)
    (hT : containsSub h2sep T = false) (hk : 1 ≤ k)
    (hl : T.getLast? = some cT) (hws : isWs cT = false) :
    prependToConsolidated (T ++ nlRep k) name sec
      = T ++ nlRep 1 ++ planSection name sec := by
  have hsplit := splitFirstAux_append h2sep (T ++ nlRep k) []
    (no_match_header T [] k hT hk (Or.inl rfl))
  simp only [List.append_nil, splitFirstAux, Option.map_none] at hsplit
  unfold prependToConsolidated
  rw [hsplit, trimRightL_append_nl T k cT hl hws]
  rw [str_sep2, planSection_eq]
  simp [List.append_assoc, h2sep_eq, nlRep, List.replicate_succ]

theorem findingsHeader_noSep : containsSub h2sep findingsArchHeader = false := by decide

theorem decisionsHeader_noSep : containsSub h2sep decisionsArchHeader = false := by decide

theorem findingsHeader_last : findingsArchHeader.getLast? = some '*' := by decide

theorem decisionsHeader_last : decisionsArchHeader.getLast? = some '*' := by decide

theorem findingsSeed_eq : consolidatedFindingsSeed = findingsArchHeader ++ nlRep 1 := by decide

theorem decisionsSeed_eq : consolidatedDecisionsSeed = decisionsArchHeader ++ nlRep 1 := by decide

theorem lookupPlan_setPlan_self (l : List (Content × PlanDir)) (n : Content) (v : PlanDir) :
    lookupPlan (setPlan l n v) n = some v := by
  induction l with
  | nil => simp [setPlan, lookupPlan]
  | cons kv t ih =>
    obtain ⟨k, w⟩ := kv
    by_cases hk : k = n
    · simp [setPlan, hk, lookupPlan]
    · simp [setPlan, hk, lookupPlan, ih]

theorem findingsTransform_nil (name : Content) : findingsTransform name [] = [] := rfl

theorem decisionsTransform_nil : decisionsTransform [] = [] := rfl

theorem isEmpty_false_of_ne (l : Content) (h : l ≠ []) : l.isEmpty = false := by
  cases l with
  | nil => exact absurd rfl h
  | cons a t => rfl

theorem createAuthorClose_proj (goal ts : Content) (fs : FS) (name fc dc : Content)
    (hp : fs.pointer = none)
    (hname : trimL name = name) (hne : name ≠ [])
    (hfc : findingsTransform name fc ≠ []) (hdc : decisionsTransform dc ≠ []) :
    (createAuthorClose goal ts fs (name, fc, dc)).pointer = none ∧
    (createAuthorClose goal ts fs (name, fc, dc)).findingsArch
      = some (prependToConsolidated (fs.findingsArch.getD consolidatedFindingsSeed) name
          (findingsTransform name fc)) ∧
    (createAuthorClose goal ts fs (name, fc, dc)).decisionsArch
      = some (prependToConsolidated (fs.decisionsArch.getD consolidatedDecisionsSeed) name
          (decisionsTransform dc)) := by
  obtain ⟨pde, pt, fa, da, dirs, gi⟩ := fs
  replace hp : pt = none := hp
  subst hp
  have hfc' : fc ≠ [] := by
    intro h
    rw [h, findingsTransform_nil] at hfc
    exact hfc rfl
  have hdc' : dc ≠ [] := by
    intro h
    rw [h, decisionsTransform_nil] at hdc
    exact hdc rfl
  simp [createAuthorClose, cmdNew, cmdNewCreate, authorPlan, cmdClose, readPointer, hname,
    isEmpty_false_of_ne _ hne, isEmpty_false_of_ne _ hfc', isEmpty_false_of_ne _ hdc',
    isEmpty_false_of_ne _ hfc, isEmpty_false_of_ne _ hdc,
    closeApply, mergeFindingsStep, mergeDecisionsStep, ensureConsolidatedFiles,
    readPlanFile, lookupPlan_setPlan_self, updatePlan, planExists,
    runCreation, creationStep]

theorem planSection_isPrefix (name sec B : Content) :
    h2sep.isPrefixOf (planSection name sec ++ B) = true := by
  rw [planSection_eq]
  rw [List.isPrefixOf_iff_prefix]
  simp only [List.append_assoc]
  exact List.prefix_append h2sep _

theorem findingsSections_cons (name fc dc : Content) (rest : List (Content × Content × Content)) :
    findingsSections ((name, fc, dc) :: rest)
      = findingsSections rest ++ planSection name (findingsTransform name fc) := by
  simp [findingsSections, List.reverse_cons, List.map_append, List.flatten_append]

theorem decisionsSections_cons (name fc dc : Content) (rest : List (Content × Content × Content)) :
    decisionsSections ((name, fc, dc) :: rest)
      = decisionsSections rest ++ planSection name (decisionsTransform dc) := by
  simp [decisionsSections, List.reverse_cons, List.map_append, List.flatten_append]

theorem runCycles_cons (goal ts : Content) (fs : FS) (p : Content × Content × Content)
    (rest : List (Content × Content × Content)) :
    runCycles goal ts fs (p :: rest) = runCycles goal ts (createAuthorClose goal ts fs p) rest := rfl

theorem runCycles_arch (goal ts : Content) (ps : List (Content × Content × Content)) :
    ∀ (fs : FS) (j : Nat) (B D : Content),
    1 ≤ j →
    fs.pointer = none →
    fs.findingsArch = some (findingsArchHeader ++ nlRep j ++ B) →
    fs.decisionsArch = some (decisionsArchHeader ++ nlRep j ++ D) →
    h2sep.isPrefixOf B = true →
    h2sep.isPrefixOf D = true →
    (∀ p ∈ ps, trimL p.1 = p.1 ∧ p.1 ≠ [] ∧
       findingsTransform p.1 p.2.1 ≠ [] ∧ decisionsTransform p.2.2 ≠ []) →
    (runCycles goal ts fs ps).findingsArch
        = some (findingsArchHeader ++ nlRep (j + ps.length) ++ (findingsSections ps ++ B)) ∧
    (runCycles goal ts fs ps).decisionsArch
        = some (decisionsArchHeader ++ nlRep (j + ps.length) ++ (decisionsSections ps ++ D)) ∧
    (runCycles goal ts fs ps).pointer = none := by
  induction ps with
  | nil =>
    intro fs j B D hj hp hf hd hB hD hmem
    simp [runCycles, findingsSections, decisionsSections, hf, hd, hp]
  | cons p rest ih =>
    intro fs j B D hj hp hf hd hB hD hmem
    obtain ⟨name, fc, dc⟩ := p
    obtain ⟨hn1, hn2, hn3, hn4⟩ := hmem (name, fc, dc) (List.mem_cons_self _ _)
    have hstep := createAuthorClose_proj goal ts fs name fc dc hp hn1 hn2 hn3 hn4
    have hfa1 : (createAuthorClose goal ts fs (name, fc, dc)).findingsArch
        = some (findingsArchHeader ++ nlRep (j + 1)
            ++ (planSection name (findingsTransform name fc) ++ B)) := by
      rw [hstep.2.1, hf]
      simp only [Option.getD_some]
      rw [prepend_step findingsArchHeader B name _ j findingsHeader_noSep hj hB]
      simp [List.append_assoc]
    have hda1 : (createAuthorClose goal ts fs (name, fc, dc)).decisionsArch
        = some (decisionsArchHeader ++ nlRep (j + 1)
            ++ (planSection name (decisionsTransform dc) ++ D)) := by
      rw [hstep.2.2, hd]
      simp only [Option.getD_some]
      rw [prepend_step decisionsArchHeader D name _ j decisionsHeader_noSep hj hD]
      simp [List.append_assoc]
    have hrest := ih (createAuthorClose goal ts fs (name, fc, dc)) (j + 1)
      (planSection name (findingsTransform name fc) ++ B)
      (planSection name (decisionsTransform dc) ++ D)
      (by omega) hstep.1 hfa1 hda1
      (planSection_isPrefix name _ B) (planSection_isPrefix name _ D)
      (fun q hq => hmem q (List.mem_cons_of_mem _ hq))
    rw [runCycles_cons]
    refine ⟨?_, ?_, hrest.2.2⟩
    · rw [hrest.1, findingsSections_cons]
      have harith : j + 1 + rest.length = j + (rest.length + 1) := by omega
      rw [harith]
      simp [List.append_assoc, List.length_cons]
    · rw [hrest.2.1, decisionsSections_cons]
      have harith : j + 1 + rest.length = j + (rest.length + 1) := by omega
      rw [harith]
      simp [List.append_assoc, List.length_cons]

theorem findingsSections_append (xs ys : List (Content × Content × Content)) :
    findingsSections (xs ++ ys) = findingsSections ys ++ findingsSections xs := by
  simp [findingsSections, List.reverse_append, List.map_append, List.flatten_append]

theorem decisionsSections_append (xs ys : List (Content × Content × Content)) :
    decisionsSections (xs ++ ys) = decisionsSections ys ++ decisionsSections xs := by
  simp [decisionsSections, List.reverse_append, List.map_append, List.flatten_append]

/-- C2: for any sequence of N distinct plans each created and then
closed in order P1, ..., PN, each consolidated archive consists of its
fixed header preamble (plus blank padding), followed immediately by PN's
plan section, then PN-1's, ..., then P1's (strict newest-first order,
`findingsSections`/`decisionsSections` reverse the run order), and every
previously merged plan section survives every later close character for
character: after the whole run, the section block of the first k closes
is still a verbatim suffix of each archive. -/
theorem c2_newest_first_archive (goal ts : Content) (fs0 : FS)
    (ps : List (Content × Content × Content))
    (hps : ps ≠ [])
    (hp0 : fs0.pointer = none) (hf0 : fs0.findingsArch = none)
    (hd0 : fs0.decisionsArch = none)
    (hdistinct : ps.Pairwise (fun a b => a.1 ≠ b.1))
    (hmem : ∀ p ∈ ps, trimL p.1 = p.1 ∧ p.1 ≠ [] ∧
       findingsTransform p.1 p.2.1 ≠ [] ∧ decisionsTransform p.2.2 ≠ []) :
    (runCycles goal ts fs0 ps).findingsArch
      = some (findingsArchHeader ++ nlRep ps.length ++ findingsSections ps) ∧
    (runCycles goal ts fs0 ps).decisionsArch
      = some (decisionsArchHeader ++ nlRep ps.length ++ decisionsSections ps) ∧
    (∀ k, ∃ pre, (runCycles goal ts fs0 ps).findingsArch
      = some (pre ++ findingsSections (ps.take k))) ∧
    (∀ k, ∃ pre, (runCycles goal ts fs0 ps).decisionsArch
      = some (pre ++ decisionsSections (ps.take k))) := by
  obtain ⟨⟨name, fc, dc⟩, rest, rfl⟩ : ∃ p rest, ps = p :: rest := by
    cases ps with
    | nil => exact absurd rfl hps
    | cons p rest => exact ⟨p, rest, rfl⟩
  obtain ⟨hn1, hn2, hn3, hn4⟩ := hmem (name, fc, dc) (List.mem_cons_self _ _)
  have hstep := createAuthorClose_proj goal ts fs0 name fc dc hp0 hn1 hn2 hn3 hn4
  have hfa1 : (createAuthorClose goal ts fs0 (name, fc, dc)).findingsArch
      = some (findingsArchHeader ++ nlRep 1 ++ planSection name (findingsTransform name fc)) := by
    rw [hstep.2.1, hf0]
    simp only [Option.getD_none]
    rw [findingsSeed_eq,
      prepend_fresh findingsArchHeader name _ 1 '*' findingsHeader_noSep (le_refl 1)
        findingsHeader_last (by decide)]
  have hda1 : (createAuthorClose goal ts fs0 (name, fc, dc)).decisionsArch
      = some (decisionsArchHeader ++ nlRep 1 ++ planSection name (decisionsTransform dc)) := by
    rw [hstep.2.2, hd0]
    simp only [Option.getD_none]
    rw [decisionsSeed_eq,
      prepend_fresh decisionsArchHeader name _ 1 '*' decisionsHeader_noSep (le_refl 1)
        decisionsHeader_last (by decide)]
  have hBpre : h2sep.isPrefixOf (planSection name (findingsTransform name fc)) = true := by
    have := planSection_isPrefix name (findingsTransform name fc) []
    rwa [List.append_nil] at this
  have hDpre : h2sep.isPrefixOf (planSection name (decisionsTransform dc)) = true := by
    have := planSection_isPrefix name (decisionsTransform dc) []
    rwa [List.append_nil] at this
  have hrest := runCycles_arch goal ts rest (createAuthorClose goal ts fs0 (name, fc, dc)) 1
    (planSection name (findingsTransform name fc))
    (planSection name (decisionsTransform dc))
    (le_refl 1) hstep.1 hfa1 hda1 hBpre hDpre
    (fun q hq => hmem q (List.mem_cons_of_mem _ hq))
  rw [runCycles_cons]
  have hfin : (runCycles goal ts (createAuthorClose goal ts fs0 (name, fc, dc)) rest).findingsArch
      = some (findingsArchHeader ++ nlRep ((name, fc, dc) :: rest).length
          ++ findingsSections ((name, fc, dc) :: rest)) := by
    rw [hrest.1, findingsSections_cons]
    have harith : 1 + rest.length = ((name, fc, dc) :: rest).length := by
      simp [List.length_cons, Nat.add_comm]
    rw [harith]
  have hdec : (runCycles goal ts (createAuthorClose goal ts fs0 (name, fc, dc)) rest).decisionsArch
      = some (decisionsArchHeader ++ nlRep ((name, fc, dc) :: rest).length
          ++ decisionsSections ((name, fc, dc) :: rest)) := by
    rw [hrest.2.1, decisionsSections_cons]
    have harith : 1 + rest.length = ((name, fc, dc) :: rest).length := by
      simp [List.length_cons, Nat.add_comm]
    rw [harith]
  refine ⟨hfin, hdec, ?_, ?_⟩
  · intro k
    refine ⟨findingsArchHeader ++ nlRep ((name, fc, dc) :: rest).length
      ++ findingsSections (((name, fc, dc) :: rest).drop k), ?_⟩
    rw [hfin]
    have hsplit : (name, fc, dc) :: rest
        = ((name, fc, dc) :: rest).take k ++ ((name, fc, dc) :: rest).drop k :=
      (List.take_append_drop k _).symm
    rw [show findingsSections ((name, fc, dc) :: rest)
        = findingsSections (((name, fc, dc) :: rest).take k ++ ((name, fc, dc) :: rest).drop k)
      from by rw [← hsplit]]
    rw [findingsSections_append]
    simp [List.append_assoc]
  · intro k
    refine ⟨decisionsArchHeader ++ nlRep ((name, fc, dc) :: rest).length
      ++ decisionsSections (((name, fc, dc) :: rest).drop k), ?_⟩
    rw [hdec]
    have hsplit : (name, fc, dc) :: rest
        = ((name, fc, dc) :: rest).take k ++ ((name, fc, dc) :: rest).drop k :=
      (List.take_append_drop k _).symm
    rw [show decisionsSections ((name, fc, dc) :: rest)
        = decisionsSections (((name, fc, dc) :: rest).take k ++ ((name, fc, dc) :: rest).drop k)
      from by rw [← hsplit]]
    rw [decisionsSections_append]
    simp [List.append_assoc]

/-- Witness for C2: a concrete two-plan created-then-closed run, with
every hypothesis discharged by evaluation. -/
theorem c2_newest_first_archive_witness :
    (runCycles (str "g") (str "t") {}
        [(str "plan_a", str "## F1\nx", str "## D1\ny"),
         (str "plan_b", str "## F2\nz", str "## D2\nw")]).findingsArch
      = some (findingsArchHeader
          ++ nlRep ([(str "plan_a", str "## F1\nx", str "## D1\ny"),
                     (str "plan_b", str "## F2\nz", str "## D2\nw")]).length
          ++ findingsSections
              [(str "plan_a", str "## F1\nx", str "## D1\ny"),
               (str "plan_b", str "## F2\nz", str "## D2\nw")]) ∧
    (runCycles (str "g") (str "t") {}
        [(str "plan_a", str "## F1\nx", str "## D1\ny"),
         (str "plan_b", str "## F2\nz", str "## D2\nw")]).decisionsArch
      = some (decisionsArchHeader
          ++ nlRep ([(str "plan_a", str "## F1\nx", str "## D1\ny"),
                     (str "plan_b", str "## F2\nz", str "## D2\nw")]).length
          ++ decisionsSections
              [(str "plan_a", str "## F1\nx", str "## D1\ny"),
               (str "plan_b", str "## F2\nz", str "## D2\nw")]) ∧
    (∀ k, ∃ pre, (runCycles (str "g") (str "t") {}
        [(str "plan_a", str "## F1\nx", str "## D1\ny"),
         (str "plan_b", str "## F2\nz", str "## D2\nw")]).findingsArch
      = some (pre ++ findingsSections
          ([(str "plan_a", str "## F1\nx", str "## D1\ny"),
            (str "plan_b", str "## F2\nz", str "## D2\nw")].take k))) ∧
    (∀ k, ∃ pre, (runCycles (str "g") (str "t") {}
        [(str "plan_a", str "## F1\nx", str "## D1\ny"),
         (str "plan_b", str "## F2\nz", str "## D2\nw")]).decisionsArch
      = some (pre ++ decisionsSections
          ([(str "plan_a", str "## F1\nx", str "## D1\ny"),
            (str "plan_b", str "## F2\nz", str "## D2\nw")].take k))) :=
  c2_newest_first_archive (str "g") (str "t") {}
    [(str "plan_a", str "## F1\nx", str "## D1\ny"),
     (str "plan_b", str "## F2\nz", str "## D2\nw")]
    (by decide) rfl rfl rfl (by decide) (by decide)

theorem mergeFindingsStep_shape (fs : FS) (n : Content) :
    ∃ a, mergeFindingsStep fs n = { fs with findingsArch := a } := by
  simp only [mergeFindingsStep]
  split
  · exact ⟨fs.findingsArch, rfl⟩
  · split
    · exact ⟨fs.findingsArch, rfl⟩
    · split
      · exact ⟨fs.findingsArch, rfl⟩
      · exact ⟨_, rfl⟩

theorem mergeDecisionsStep_shape (fs : FS) (n : Content) :
    ∃ a, mergeDecisionsStep fs n = { fs with decisionsArch := a } := by
  simp only [mergeDecisionsStep]
  split
  · exact ⟨fs.decisionsArch, rfl⟩
  · split
    · exact ⟨fs.decisionsArch, rfl⟩
    · split
      · exact ⟨fs.decisionsArch, rfl⟩
      · exact ⟨_, rfl⟩

theorem closeApply_shape (n : Content) (steps : Nat) (fs : FS) :
    ∃ a b, closeApply n steps fs = { fs with findingsArch := a, decisionsArch := b } := by
  unfold closeApply
  by_cases h1 : 1 ≤ steps <;> by_cases h2 : 2 ≤ steps <;> by_cases h3 : 3 ≤ steps <;>
    simp only [h1, h2, h3, if_true, if_false, ite_true, ite_false]
  · obtain ⟨a1, ha1⟩ := mergeFindingsStep_shape (ensureConsolidatedFiles fs) n
    obtain ⟨a2, ha2⟩ := mergeDecisionsStep_shape
      (mergeFindingsStep (ensureConsolidatedFiles fs) n) n
    rw [ha2, ha1]
    exact ⟨_, _, rfl⟩
  · obtain ⟨a1, ha1⟩ := mergeFindingsStep_shape (ensureConsolidatedFiles fs) n
    rw [ha1]
    exact ⟨_, _, rfl⟩
  · exfalso; omega
  · exact ⟨_, _, rfl⟩
  · exfalso; omega
  · exfalso; omega
  · exfalso; omega
  · exact ⟨fs.findingsArch, fs.decisionsArch, rfl⟩

theorem head_dropWhile_isWs (l : Content) :
    ∀ c, (l.dropWhile isWs).head? = some c → isWs c = false := by
  induction l with
  | nil => intro c hc; simp [List.dropWhile] at hc
  | cons a t ih =>
    intro c hc
    by_cases ha : isWs a = true
    · rw [List.dropWhile_cons_of_pos ha] at hc
      exact ih c hc
    · rw [List.dropWhile_cons_of_neg ha] at hc
      simp only [List.head?_cons, Option.some.injEq] at hc
      subst hc
      exact Bool.eq_false_iff.mpr ha

theorem dropWhile_isWs_fix (l : Content)
    (h : ∀ c, l.head? = some c → isWs c = false) : l.dropWhile isWs = l := by
  cases l with
  | nil => rfl
  | cons a t => exact List.dropWhile_cons_of_neg (by simp [h a rfl])

theorem trimL_idem (s : Content) : trimL (trimL s) = trimL s := by
  have hBhead : ∀ c, (trimL s).head? = some c → isWs c = false :=
    head_dropWhile_isWs (trimRightL s)
  by_cases hBe : trimL s = []
  · rw [hBe]
    rfl
  · have hsplit : (trimRightL s).takeWhile isWs ++ trimL s = trimRightL s :=
      List.takeWhile_append_dropWhile isWs (trimRightL s)
    have hBlast : ∀ c, (trimL s).reverse.head? = some c → isWs c = false := by
      intro c hc
      rw [← List.getLast?_eq_head?_reverse] at hc
      have hlast2 : (trimRightL s).getLast? = some c := by
        rw [← hsplit]
        rw [@List.getLast?_append_of_ne_nil _ _ (trimL s) hBe]
        exact hc
      have hlast3 : (s.reverse.dropWhile isWs).head? = some c := by
        unfold trimRightL at hlast2
        rw [List.getLast?_eq_head?_reverse, List.reverse_reverse] at hlast2
        exact hlast2
      exact head_dropWhile_isWs s.reverse c hlast3
    have h1 : trimRightL (trimL s) = trimL s := by
      unfold trimRightL
      rw [dropWhile_isWs_fix (trimL s).reverse hBlast, List.reverse_reverse]
    have h2 : trimL (trimL s) = (trimRightL (trimL s)).dropWhile isWs := rfl
    rw [h2, h1]
    exact dropWhile_isWs_fix (trimL s) hBhead

theorem readPointer_spec (fs : FS) (name : Content) (h : readPointer fs = some name) :
    planExists fs name = true ∧ trimL name = name ∧ name ≠ [] := by
  unfold readPointer at h
  cases hp : fs.pointer with
  | none => rw [hp] at h; simp at h
  | some raw =>
    rw [hp] at h
    simp only [] at h
    split at h
    · rename_i hcond
      simp only [Option.some.injEq] at h
      subst h
      rw [Bool.and_eq_true] at hcond
      refine ⟨hcond.2, trimL_idem raw, ?_⟩
      intro hnil
      rw [hnil] at hcond
      simp at hcond
    · exact absurd h (by simp)

theorem lookupPlan_setPlan_ne (l : List (Content × PlanDir)) (n m : Content) (v : PlanDir)
    (hm : m ≠ n) : lookupPlan (setPlan l n v) m = lookupPlan l m := by
  induction l with
  | nil => simp [setPlan, lookupPlan, hm, Ne.symm hm]
  | cons kv t ih =>
    obtain ⟨k, w⟩ := kv
    by_cases hk : k = n
    · subst hk
      simp [setPlan, lookupPlan, hm, Ne.symm hm]
    · simp [setPlan, hk, lookupPlan, ih]

theorem lookupPlan_removePlan_ne (l : List (Content × PlanDir)) (n m : Content)
    (hm : m ≠ n) : lookupPlan (removePlan l n) m = lookupPlan l m := by
  induction l with
  | nil => simp [removePlan, lookupPlan]
  | cons kv t ih =>
    obtain ⟨k, w⟩ := kv
    by_cases hk : k = n
    · subst hk
      have hdrop : removePlan ((k, w) :: t) k = removePlan t k := by
        simp [removePlan, List.filter_cons]
      rw [hdrop, ih]
      simp [lookupPlan, Ne.symm hm]
    · have hkeep : removePlan ((k, w) :: t) n = (k, w) :: removePlan t n := by
        simp [removePlan, List.filter_cons, hk]
      rw [hkeep]
      simp [lookupPlan, ih]

theorem creationStep_lookup_ne (goal ts note newName : Content) (i : Nat) (fs : FS)
    (m : Content) (hm : m ≠ newName) :
    lookupPlan (creationStep goal ts note newName i fs).planDirs m
      = lookupPlan fs.planDirs m := by
  rcases i with _|_|_|_|_|_|_|_|i <;>
    simp [creationStep, updatePlan, ensureConsolidatedFiles,
      lookupPlan_setPlan_ne _ _ _ _ hm]

theorem runCreation_lookup_ne (goal ts note newName : Content) (k : Nat) (fs : FS)
    (m : Content) (hm : m ≠ newName) :
    lookupPlan (runCreation goal ts note newName k fs).planDirs m
      = lookupPlan fs.planDirs m := by
  induction k with
  | zero => rfl
  | succ k ih =>
    rw [runCreation, creationStep_lookup_ne goal ts note newName k _ m hm, ih]

theorem cmdClose_frame (fs : FS) (silent : Bool) (failPoint : Option Nat) :
    (cmdClose fs silent failPoint).fs.planDirs = fs.planDirs ∧
    (cmdClose fs silent failPoint).fs.gitignore = fs.gitignore ∧
    (cmdClose fs silent failPoint).fs.plansDirExists = fs.plansDirExists := by
  unfold cmdClose
  cases hact : readPointer fs with
  | none => cases silent <;> simp
  | some name =>
    obtain ⟨a, b, hshape⟩ := closeApply_shape name
      (match failPoint with | none => 3 | some k => min k 3) fs
    simp [hshape]

theorem cmdClose_pointer_active (fs : FS) (silent : Bool) (failPoint : Option Nat)
    (name : Content) (hact : readPointer fs = some name) :
    (cmdClose fs silent failPoint).fs.pointer = none := by
  unfold cmdClose
  rw [hact]

theorem lookupPlan_removePlan_self (l : List (Content × PlanDir)) (n : Content) :
    lookupPlan (removePlan l n) n = none := by
  induction l with
  | nil => simp [removePlan, lookupPlan]
  | cons kv t ih =>
    obtain ⟨k, w⟩ := kv
    by_cases hk : k = n
    · subst hk
      have hdrop : removePlan ((k, w) :: t) k = removePlan t k := by
        simp [removePlan, List.filter_cons]
      rw [hdrop, ih]
    · have hkeep : removePlan ((k, w) :: t) n = (k, w) :: removePlan t n := by
        simp [removePlan, List.filter_cons, hk]
      rw [hkeep]
      simp [lookupPlan, hk, ih]

/-- C7: for every plan that is active when `close` runs, the plan
directory and every file inside it remain present and byte-for-byte
unchanged afterwards (all plan directories are untouched, as are the
ignore file and the plans root); `close` removes only the pointer and
exits zero — for any outcome of the consolidation step. -/
theorem c7_close_no_data_loss (fs : FS) (name : Content) (failPoint : Option Nat)
    (hact : readPointer fs = some name) :
    (cmdClose fs false failPoint).fs.planDirs = fs.planDirs ∧
    (cmdClose fs false failPoint).fs.pointer = none ∧
    (cmdClose fs false failPoint).fs.gitignore = fs.gitignore ∧
    (cmdClose fs false failPoint).fs.plansDirExists = fs.plansDirExists ∧
    (cmdClose fs false failPoint).exit = 0 := by
  obtain ⟨h1, h2, h3⟩ := cmdClose_frame fs false failPoint
  refine ⟨h1, cmdClose_pointer_active fs false failPoint name hact, h2, h3, ?_⟩
  unfold cmdClose
  rw [hact]

/-- Witness for C7 on a concrete one-plan filesystem. -/
theorem c7_close_no_data_loss_witness :
    (cmdClose sampleActiveFS false none).fs.planDirs = sampleActiveFS.planDirs ∧
    (cmdClose sampleActiveFS false none).fs.pointer = none ∧
    (cmdClose sampleActiveFS false none).fs.gitignore = sampleActiveFS.gitignore ∧
    (cmdClose sampleActiveFS false none).fs.plansDirExists = sampleActiveFS.plansDirExists ∧
    (cmdClose sampleActiveFS false none).exit = 0 :=
  c7_close_no_data_loss sampleActiveFS (str "plan_x") none (by decide)

/-- C10: when the consolidation step of `close` throws while a plan is
active, the error is caught and reported only as a warning: `close`
still exits zero, still removes the pointer (close is not atomic with
respect to merge failure), and the per-plan files are unchanged. -/
theorem c10_close_merge_failure_warns (fs : FS) (name : Content) (k : Nat)
    (hact : readPointer fs = some name) :
    (cmdClose fs false (some k)).exit = 0 ∧
    (cmdClose fs false (some k)).fs.pointer = none ∧
    (cmdClose fs false (some k)).fs.planDirs = fs.planDirs ∧
    (cmdClose fs false (some k)).err
      = [str "WARNING: Merge to consolidated files failed.",
         str "  Per-plan files remain intact at plans/" ++ name ++ str "/"] := by
  obtain ⟨h1, _, _⟩ := cmdClose_frame fs false (some k)
  refine ⟨?_, cmdClose_pointer_active fs false (some k) name hact, h1, ?_⟩ <;>
    (unfold cmdClose; rw [hact]) <;> rfl

/-- Witness for C10 on a concrete one-plan filesystem with the merge
throwing at its first step. -/
theorem c10_close_merge_failure_warns_witness :
    (cmdClose sampleActiveFS false (some 0)).exit = 0 ∧
    (cmdClose sampleActiveFS false (some 0)).fs.pointer = none ∧
    (cmdClose sampleActiveFS false (some 0)).fs.planDirs = sampleActiveFS.planDirs ∧
    (cmdClose sampleActiveFS false (some 0)).err
      = [str "WARNING: Merge to consolidated files failed.",
         str "  Per-plan files remain intact at plans/" ++ str "plan_x" ++ str "/"] :=
  c10_close_merge_failure_warns sampleActiveFS (str "plan_x") 0 (by decide)

/-- C8: invoking `new` without `--force` while a plan is active fails
with the distinct active-plan-exists error and exit code 1, creates no
directory and no file (plans, archives and ignore file all unchanged),
prints nothing on stdout, and leaves the same plan active. -/
theorem c8_new_requires_force (fs : FS) (goal ts newName nm : Content)
    (failAt closeFailAt : Option Nat) (g : Bool)
    (hact : readPointer fs = some nm) :
    (cmdNew fs goal ts newName false failAt closeFailAt g).exit = 1 ∧
    (cmdNew fs goal ts newName false failAt closeFailAt g).fs.planDirs = fs.planDirs ∧
    (cmdNew fs goal ts newName false failAt closeFailAt g).fs.pointer = fs.pointer ∧
    (cmdNew fs goal ts newName false failAt closeFailAt g).fs.findingsArch = fs.findingsArch ∧
    (cmdNew fs goal ts newName false failAt closeFailAt g).fs.decisionsArch = fs.decisionsArch ∧
    (cmdNew fs goal ts newName false failAt closeFailAt g).fs.gitignore = fs.gitignore ∧
    readPointer (cmdNew fs goal ts newName false failAt closeFailAt g).fs = some nm ∧
    (cmdNew fs goal ts newName false failAt closeFailAt g).out = [] ∧
    (cmdNew fs goal ts newName false failAt closeFailAt g).err
      = [str "ERROR: Active plan directory already exists: plans/" ++ nm,
         str "  To resume / view status / close / force, see usage."] := by
  have hact' : readPointer { fs with plansDirExists := true } = some nm := hact
  simp [cmdNew, hact']

/-- Witness for C8 on a concrete one-plan filesystem. -/
theorem c8_new_requires_force_witness :
    (cmdNew sampleActiveFS (str "g") (str "t") (str "plan_new") false none none false).exit = 1 ∧
    (cmdNew sampleActiveFS (str "g") (str "t") (str "plan_new") false none none false).fs.planDirs
      = sampleActiveFS.planDirs ∧
    (cmdNew sampleActiveFS (str "g") (str "t") (str "plan_new") false none none false).fs.pointer
      = sampleActiveFS.pointer ∧
    (cmdNew sampleActiveFS (str "g") (str "t") (str "plan_new") false none none false).fs.findingsArch
      = sampleActiveFS.findingsArch ∧
    (cmdNew sampleActiveFS (str "g") (str "t") (str "plan_new") false none none false).fs.decisionsArch
      = sampleActiveFS.decisionsArch ∧
    (cmdNew sampleActiveFS (str "g") (str "t") (str "plan_new") false none none false).fs.gitignore
      = sampleActiveFS.gitignore ∧
    readPointer (cmdNew sampleActiveFS (str "g") (str "t") (str "plan_new") false none none false).fs
      = some (str "plan_x") ∧
    (cmdNew sampleActiveFS (str "g") (str "t") (str "plan_new") false none none false).out = [] ∧
    (cmdNew sampleActiveFS (str "g") (str "t") (str "plan_new") false none none false).err
      = [str "ERROR: Active plan directory already exists: plans/" ++ str "plan_x",
         str "  To resume / view status / close / force, see usage."] :=
  c8_new_requires_force sampleActiveFS (str "g") (str "t") (str "plan_new") (str "plan_x")
    none none false (by decide)

theorem runCreation_lookup_self (goal ts note newName : Content) (k : Nat) (fs : FS)
    (hk : 1 ≤ k) :
    (lookupPlan (runCreation goal ts note newName k fs).planDirs newName).isSome = true := by
  induction k with
  | zero => omega
  | succ k ih =>
    rw [runCreation]
    rcases k with _|_|_|_|_|_|_|_|k' <;>
      simp only [creationStep, updatePlan, ensureConsolidatedFiles] <;>
      try simp [lookupPlan_setPlan_self]
    exact ih (by omega)

theorem cmdNewCreate_fs_msg_indep (fsC : FS) (goal ts newName : Content)
    (prev : Option Content) (o1 e1 o2 e2 : List Content) (failAt : Option Nat) (g : Bool) :
    (cmdNewCreate fsC goal ts newName prev o1 e1 failAt g).fs
      = (cmdNewCreate fsC goal ts newName prev o2 e2 failAt g).fs := by
  cases failAt <;> cases g <;> rfl

theorem cmdNewCreate_exit_msg_indep (fsC : FS) (goal ts newName : Content)
    (prev : Option Content) (o1 e1 o2 e2 : List Content) (failAt : Option Nat) (g : Bool) :
    (cmdNewCreate fsC goal ts newName prev o1 e1 failAt g).exit
      = (cmdNewCreate fsC goal ts newName prev o2 e2 failAt g).exit := by
  cases failAt <;> cases g <;> rfl

theorem cmdNewCreate_pointer_fail (fsC : FS) (goal ts newName : Content)
    (prev : Option Content) (o e : List Content) (k : Nat) (g : Bool) :
    (cmdNewCreate fsC goal ts newName prev o e (some k) g).fs.pointer = prev := rfl

theorem cmdNewCreate_exit_fail (fsC : FS) (goal ts newName : Content)
    (prev : Option Content) (o e : List Content) (k : Nat) (g : Bool) :
    (cmdNewCreate fsC goal ts newName prev o e (some k) g).exit = 1 := rfl

theorem cmdNewCreate_pointer_success (fsC : FS) (goal ts newName : Content)
    (prev : Option Content) (o e : List Content) (g : Bool) :
    (cmdNewCreate fsC goal ts newName prev o e none g).fs.pointer = some newName := by
  cases g <;> rfl

theorem cmdNewCreate_lookup_fail_self (fsC : FS) (goal ts newName : Content)
    (prev : Option Content) (o e : List Content) (k : Nat) (g : Bool) :
    lookupPlan (cmdNewCreate fsC goal ts newName prev o e (some k) g).fs.planDirs newName
      = none :=
  lookupPlan_removePlan_self _ _

theorem cmdNewCreate_lookup_fail_ne (fsC : FS) (goal ts newName m : Content)
    (prev : Option Content) (o e : List Content) (k : Nat) (g : Bool) (hm : m ≠ newName) :
    lookupPlan (cmdNewCreate fsC goal ts newName prev o e (some k) g).fs.planDirs m
      = lookupPlan fsC.planDirs m := by
  have h1 : (cmdNewCreate fsC goal ts newName prev o e (some k) g).fs.planDirs
      = removePlan (runCreation goal ts
          (if (fsC.findingsArch.isSome || fsC.decisionsArch.isSome) = true
           then crossPlanNoteSeed else [])
          newName (min k 9) fsC).planDirs newName := rfl
  rw [h1, lookupPlan_removePlan_ne _ _ _ hm, runCreation_lookup_ne _ _ _ _ _ _ _ hm]

theorem cmdNewCreate_planDirs_success (fsC : FS) (goal ts newName : Content)
    (prev : Option Content) (o e : List Content) (g : Bool) :
    (cmdNewCreate fsC goal ts newName prev o e none g).fs.planDirs
      = (runCreation goal ts
          (if (fsC.findingsArch.isSome || fsC.decisionsArch.isSome) = true
           then crossPlanNoteSeed else [])
          newName 9 fsC).planDirs := by
  cases g <;> rfl

theorem cmdNewCreate_lookup_success_self (fsC : FS) (goal ts newName : Content)
    (prev : Option Content) (o e : List Content) (g : Bool) :
    (lookupPlan (cmdNewCreate fsC goal ts newName prev o e none g).fs.planDirs
      newName).isSome = true := by
  rw [cmdNewCreate_planDirs_success]
  exact runCreation_lookup_self _ _ _ _ 9 _ (by omega)

theorem cmdNew_shape_noActive (fs : FS) (goal ts newName : Content) (force : Bool)
    (failAt closeFailAt : Option Nat) (g : Bool)
    (hact : readPointer { fs with plansDirExists := true } = none) :
    (cmdNew fs goal ts newName force failAt closeFailAt g).fs
      = (cmdNewCreate { fs with plansDirExists := true } goal ts newName
          none [] [] failAt g).fs ∧
    (cmdNew fs goal ts newName force failAt closeFailAt g).exit
      = (cmdNewCreate { fs with plansDirExists := true } goal ts newName
          none [] [] failAt g).exit := by
  constructor <;>
    (simp only [cmdNew, hact, Option.isSome_none, Bool.false_and, Bool.false_eq_true,
      if_false, ite_false, ite_self]
     first
     | exact cmdNewCreate_fs_msg_indep _ _ _ _ _ _ _ _ _ _ _
     | exact cmdNewCreate_exit_msg_indep _ _ _ _ _ _ _ _ _ _ _)

theorem cmdNew_shape_forceActive (fs : FS) (goal ts newName old : Content)
    (failAt closeFailAt : Option Nat) (g : Bool)
    (hact : readPointer { fs with plansDirExists := true } = some old) :
    (cmdNew fs goal ts newName true failAt closeFailAt g).fs
      = (cmdNewCreate (cmdClose { fs with plansDirExists := true } true closeFailAt).fs
          goal ts newName (some old) [] [] failAt g).fs ∧
    (cmdNew fs goal ts newName true failAt closeFailAt g).exit
      = (cmdNewCreate (cmdClose { fs with plansDirExists := true } true closeFailAt).fs
          goal ts newName (some old) [] [] failAt g).exit := by
  constructor <;>
    (simp only [cmdNew, hact, Option.isSome_some, Bool.not_true, Bool.and_false,
      Bool.false_eq_true, if_false, ite_false, if_true, ite_true]
     first
     | exact cmdNewCreate_fs_msg_indep _ _ _ _ _ _ _ _ _ _ _
     | exact cmdNewCreate_exit_msg_indep _ _ _ _ _ _ _ _ _ _ _)

/-- C4: when `new --force` closes the active plan and a later creation
step fails (at any step, including the pointer write), the recovery path
restores the pointer to the previously active plan's name: afterwards
the old plan's directory still exists and is the active plan again,
while the new plan's directory is absent; the invocation exits 1. -/
theorem c4_force_failure_restores_pointer (fs : FS) (goal ts newName old : Content)
    (k : Nat) (closeFailAt : Option Nat) (g : Bool)
    (hact : readPointer fs = some old)
    (hfresh : lookupPlan fs.planDirs newName = none) :
    (cmdNew fs goal ts newName true (some k) closeFailAt g).exit = 1 ∧
    (cmdNew fs goal ts newName true (some k) closeFailAt g).fs.pointer = some old ∧
    planExists (cmdNew fs goal ts newName true (some k) closeFailAt g).fs old = true ∧
    lookupPlan (cmdNew fs goal ts newName true (some k) closeFailAt g).fs.planDirs newName
      = none ∧
    readPointer (cmdNew fs goal ts newName true (some k) closeFailAt g).fs = some old := by
  have hact' : readPointer { fs with plansDirExists := true } = some old := hact
  obtain ⟨hex, htrim, hne0⟩ := readPointer_spec fs old hact
  have hne : old ≠ newName := by
    intro h
    rw [h, planExists, hfresh] at hex
    simp at hex
  have hshape := cmdNew_shape_forceActive fs goal ts newName old (some k)
    closeFailAt g hact'
  have hframe := cmdClose_frame { fs with plansDirExists := true } true closeFailAt
  have hpt : (cmdNew fs goal ts newName true (some k) closeFailAt g).fs.pointer
      = some old := by
    rw [hshape.1]
    exact cmdNewCreate_pointer_fail _ _ _ _ _ _ _ _ _
  have hexists : planExists (cmdNew fs goal ts newName true (some k) closeFailAt g).fs old
      = true := by
    rw [planExists, hshape.1, cmdNewCreate_lookup_fail_ne _ _ _ _ _ _ _ _ _ _ hne, hframe.1]
    exact hex
  refine ⟨?_, hpt, hexists, ?_, ?_⟩
  · rw [hshape.2]
    exact cmdNewCreate_exit_fail _ _ _ _ _ _ _ _ _
  · rw [hshape.1]
    exact cmdNewCreate_lookup_fail_self _ _ _ _ _ _ _ _ _
  · unfold readPointer
    rw [hpt]
    simp [htrim, isEmpty_false_of_ne old hne0, hexists]

/-- Witness for C4: forcing over a concrete active plan with the first
creation step failing. -/
theorem c4_force_failure_restores_pointer_witness :
    (cmdNew sampleActiveFS (str "g") (str "t") (str "plan_new") true (some 0) none false).exit
      = 1 ∧
    (cmdNew sampleActiveFS (str "g") (str "t") (str "plan_new") true (some 0) none false).fs.pointer
      = some (str "plan_x") ∧
    planExists
      (cmdNew sampleActiveFS (str "g") (str "t") (str "plan_new") true (some 0) none false).fs
      (str "plan_x") = true ∧
    lookupPlan
      (cmdNew sampleActiveFS (str "g") (str "t") (str "plan_new") true (some 0) none false).fs.planDirs
      (str "plan_new") = none ∧
    readPointer
      (cmdNew sampleActiveFS (str "g") (str "t") (str "plan_new") true (some 0) none false).fs
      = some (str "plan_x") :=
  c4_force_failure_restores_pointer sampleActiveFS (str "g") (str "t") (str "plan_new")
    (str "plan_x") 0 none false (by decide) (by decide)

theorem cmdStatus_fs (fs : FS) : (cmdStatus fs).fs = fs := by
  unfold cmdStatus
  cases readPointer fs <;> rfl

theorem cmdResume_fs (fs : FS) : (cmdResume fs).fs = fs := by
  unfold cmdResume
  cases readPointer fs <;> rfl

theorem cmdList_fs (fs : FS) : (cmdList fs).fs = fs := by
  unfold cmdList
  split
  · rfl
  · dsimp only
    split <;> rfl

theorem cmdClose_preserves_inv (fs : FS) (silent : Bool) (failPoint : Option Nat)
    (hInv : PointerInv fs) : PointerInv (cmdClose fs silent failPoint).fs := by
  cases hact : readPointer fs with
  | none =>
    have hfs : (cmdClose fs silent failPoint).fs = fs := by
      unfold cmdClose
      rw [hact]
      cases silent <;> rfl
    rw [hfs]
    exact hInv
  | some name =>
    have hpt := cmdClose_pointer_active fs silent failPoint name hact
    intro raw hraw htr
    rw [hpt] at hraw
    cases hraw

theorem creationStep_pointer (goal ts note newName : Content) (i : Nat) (fs : FS) :
    (creationStep goal ts note newName i fs).pointer = fs.pointer := by
  rcases i with _|_|_|_|_|_|_|_|i <;> rfl

theorem creationStep_gitignore (goal ts note newName : Content) (i : Nat) (fs : FS) :
    (creationStep goal ts note newName i fs).gitignore = fs.gitignore := by
  rcases i with _|_|_|_|_|_|_|_|i <;> rfl

theorem creationStep_plansDirExists (goal ts note newName : Content) (i : Nat) (fs : FS) :
    (creationStep goal ts note newName i fs).plansDirExists = fs.plansDirExists := by
  rcases i with _|_|_|_|_|_|_|_|i <;> rfl

theorem runCreation_pointer (goal ts note newName : Content) (k : Nat) (fs : FS) :
    (runCreation goal ts note newName k fs).pointer = fs.pointer := by
  induction k with
  | zero => rfl
  | succ k ih => rw [runCreation, creationStep_pointer, ih]

theorem runCreation_gitignore (goal ts note newName : Content) (k : Nat) (fs : FS) :
    (runCreation goal ts note newName k fs).gitignore = fs.gitignore := by
  induction k with
  | zero => rfl
  | succ k ih => rw [runCreation, creationStep_gitignore, ih]

theorem runCreation_plansDirExists (goal ts note newName : Content) (k : Nat) (fs : FS) :
    (runCreation goal ts note newName k fs).plansDirExists = fs.plansDirExists := by
  induction k with
  | zero => rfl
  | succ k ih => rw [runCreation, creationStep_plansDirExists, ih]

theorem cmdNew_preserves_inv (fs : FS) (goal ts newName : Content) (force : Bool)
    (failAt closeFailAt : Option Nat) (g : Bool)
    (hInv : PointerInv fs) (htrim : trimL newName = newName)
    (hfresh : lookupPlan fs.planDirs newName = none) :
    PointerInv (cmdNew fs goal ts newName force failAt closeFailAt g).fs := by
  cases hact : readPointer { fs with plansDirExists := true } with
  | none =>
    have hshape := cmdNew_shape_noActive fs goal ts newName force failAt
      closeFailAt g hact
    cases failAt with
    | some k =>
      intro raw hraw htr
      rw [hshape.1, cmdNewCreate_pointer_fail] at hraw
      cases hraw
    | none =>
      intro raw hraw htr
      rw [hshape.1, cmdNewCreate_pointer_success] at hraw
      injection hraw with hraweq
      subst hraweq
      rw [htrim, planExists, hshape.1]
      exact cmdNewCreate_lookup_success_self _ _ _ _ _ _ _ _
  | some old =>
    cases force with
    | false =>
      have hfs : (cmdNew fs goal ts newName false failAt closeFailAt g).fs
          = { fs with plansDirExists := true } := by
        simp only [cmdNew, hact, Option.isSome_some, Bool.not_false, Bool.true_and,
          if_true, ite_true]
      rw [hfs]
      intro raw hraw htr
      exact hInv raw hraw htr
    | true =>
      have hspec := readPointer_spec { fs with plansDirExists := true } old hact
      have hshape := cmdNew_shape_forceActive fs goal ts newName old failAt
        closeFailAt g hact
      have hframe := cmdClose_frame { fs with plansDirExists := true } true closeFailAt
      cases failAt with
      | none =>
        intro raw hraw htr
        rw [hshape.1, cmdNewCreate_pointer_success] at hraw
        injection hraw with hraweq
        subst hraweq
        rw [htrim, planExists, hshape.1]
        exact cmdNewCreate_lookup_success_self _ _ _ _ _ _ _ _
      | some k =>
        have hne : old ≠ newName := by
          intro h
          have h1 := hspec.1
          rw [h, planExists] at h1
          rw [show ({ fs with plansDirExists := true } : FS).planDirs = fs.planDirs from rfl]
            at h1
          rw [hfresh] at h1
          simp at h1
        intro raw hraw htr
        rw [hshape.1, cmdNewCreate_pointer_fail] at hraw
        injection hraw with hraweq
        subst hraweq
        rw [hspec.2.1, planExists, hshape.1,
          cmdNewCreate_lookup_fail_ne _ _ _ _ _ _ _ _ _ _ hne, hframe.1]
        exact hspec.1

/-- C6: every operation preserves the invariant that a present pointer
file with non-empty (trimmed) content names an existing plan directory:
`new` writes the pointer only after the directory exists (in both its
plain and forced forms, for any creation/merge/ignore-file failure), the
force-failure recovery restores only the name of a plan that still
exists, `close` removes the pointer, and the read-only commands change
nothing.  The generated name is assumed fresh, as its random seed
guarantees. -/
theorem c6_operations_preserve_pointer_invariant (fs : FS) (goal ts newName : Content)
    (force : Bool) (failAt closeFailAt failPoint : Option Nat) (g silent : Bool)
    (hInv : PointerInv fs) (htrim : trimL newName = newName)
    (hfresh : lookupPlan fs.planDirs newName = none) :
    PointerInv (cmdNew fs goal ts newName force failAt closeFailAt g).fs ∧
    PointerInv (cmdClose fs silent failPoint).fs ∧
    PointerInv (cmdStatus fs).fs ∧
    PointerInv (cmdResume fs).fs ∧
    PointerInv (cmdList fs).fs := by
  refine ⟨cmdNew_preserves_inv fs goal ts newName force failAt closeFailAt g hInv htrim hfresh,
    cmdClose_preserves_inv fs silent failPoint hInv, ?_, ?_, ?_⟩
  · rw [cmdStatus_fs]
    exact hInv
  · rw [cmdResume_fs]
    exact hInv
  · rw [cmdList_fs]
    exact hInv

/-- Witness for C6 on a concrete one-plan filesystem, with a forced new
whose creation fails (the most delicate branch). -/
theorem c6_operations_preserve_pointer_invariant_witness :
    PointerInv (cmdNew sampleActiveFS (str "g") (str "t") (str "plan_new") true (some 3)
      none false).fs ∧
    PointerInv (cmdClose sampleActiveFS false none).fs ∧
    PointerInv (cmdStatus sampleActiveFS).fs ∧
    PointerInv (cmdResume sampleActiveFS).fs ∧
    PointerInv (cmdList sampleActiveFS).fs :=
  c6_operations_preserve_pointer_invariant sampleActiveFS (str "g") (str "t") (str "plan_new")
    true (some 3) none none false false
    (by
      intro raw h1 h2
      have h1' : some (str "plan_x") = some raw := h1
      injection h1' with h
      rw [← h]
      decide)
    (by decide) (by decide)

theorem creationStep_pointer_comm (goal ts note newName : Content) (i : Nat) (fs : FS)
    (p : Option Content) :
    creationStep goal ts note newName i { fs with pointer := p }
      = { creationStep goal ts note newName i fs with pointer := p } := by
  rcases i with _|_|_|_|_|_|_|_|i <;> rfl

theorem runCreation_pointer_comm (goal ts note newName : Content) (k : Nat) (fs : FS)
    (p : Option Content) :
    runCreation goal ts note newName k { fs with pointer := p }
      = { runCreation goal ts note newName k fs with pointer := p } := by
  induction k with
  | zero => rfl
  | succ k ih => rw [runCreation, ih, creationStep_pointer_comm, runCreation]

theorem fs_setp_plansDirExists (W : FS) (p : Option Content) :
    ({ W with pointer := p } : FS).plansDirExists = W.plansDirExists := rfl

theorem fs_setp_findingsArch (W : FS) (p : Option Content) :
    ({ W with pointer := p } : FS).findingsArch = W.findingsArch := rfl

theorem fs_setp_decisionsArch (W : FS) (p : Option Content) :
    ({ W with pointer := p } : FS).decisionsArch = W.decisionsArch := rfl

theorem fs_setp_planDirs (W : FS) (p : Option Content) :
    ({ W with pointer := p } : FS).planDirs = W.planDirs := rfl

theorem fs_setp_gitignore (W : FS) (p : Option Content) :
    ({ W with pointer := p } : FS).gitignore = W.gitignore := rfl

theorem cmdNewCreate_pointer_indep (X : FS) (p : Option Content)
    (goal ts newName : Content) (prev : Option Content) (o e : List Content)
    (failAt : Option Nat) (g : Bool) :
    cmdNewCreate { X with pointer := p } goal ts newName prev o e failAt g
      = cmdNewCreate X goal ts newName prev o e failAt g := by
  obtain ⟨pde, pt, fa, da, dirs, gi⟩ := X
  have hcomm : ∀ K : Nat,
      runCreation goal ts
        (if (fa.isSome || da.isSome) = true then crossPlanNoteSeed else [])
        newName K (FS.mk pde p fa da dirs gi)
      = { runCreation goal ts
            (if (fa.isSome || da.isSome) = true then crossPlanNoteSeed else [])
            newName K (FS.mk pde pt fa da dirs gi) with pointer := p } :=
    fun K => runCreation_pointer_comm goal ts _ newName K (FS.mk pde pt fa da dirs gi) p
  cases failAt with
  | some k =>
    have L : cmdNewCreate (FS.mk pde p fa da dirs gi) goal ts newName prev o e (some k) g
        = CmdResult.mk
            { runCreation goal ts
                (if (fa.isSome || da.isSome) = true then crossPlanNoteSeed else [])
                newName (min k 9) (FS.mk pde p fa da dirs gi) with
              planDirs := removePlan (runCreation goal ts
                (if (fa.isSome || da.isSome) = true then crossPlanNoteSeed else [])
                newName (min k 9) (FS.mk pde p fa da dirs gi)).planDirs newName
              pointer := prev }
            o
            (e ++ (match prev with
                   | some q =>
                     [str "WARNING: Restored pointer to previous plan: plans/" ++ q]
                   | none => []) ++ [str "ERROR: Failed to create plan directory."])
            1 := rfl
    rw [L, hcomm (min k 9)]
    rfl
  | none =>
    cases g with
    | true =>
      have L : cmdNewCreate (FS.mk pde p fa da dirs gi) goal ts newName prev o e none true
          = CmdResult.mk
              { runCreation goal ts
                  (if (fa.isSome || da.isSome) = true then crossPlanNoteSeed else [])
                  newName 9 (FS.mk pde p fa da dirs gi) with pointer := some newName }
              (o ++
                [str "Initialized plans/" ++ newName ++ str "/",
                 str "  Pointer: plans/.current_plan -> " ++ newName,
                 str "  Goal: " ++ goal,
                 str "  State: EXPLORE (iteration 0)",
                 str "  Cross-plan context: plans/FINDINGS.md, plans/DECISIONS.md",
                 str "  Next: Read code, ask questions, write findings."])
              (e ++
                [str "WARNING: Plan created but .gitignore update failed.",
                 str "  Manually add plans/ to .gitignore."])
              0 := rfl
      have R : cmdNewCreate (FS.mk pde pt fa da dirs gi) goal ts newName prev o e none true
          = CmdResult.mk
              { runCreation goal ts
                  (if (fa.isSome || da.isSome) = true then crossPlanNoteSeed else [])
                  newName 9 (FS.mk pde pt fa da dirs gi) with pointer := some newName }
              (o ++
                [str "Initialized plans/" ++ newName ++ str "/",
                 str "  Pointer: plans/.current_plan -> " ++ newName,
                 str "  Goal: " ++ goal,
                 str "  State: EXPLORE (iteration 0)",
                 str "  Cross-plan context: plans/FINDINGS.md, plans/DECISIONS.md",
                 str "  Next: Read code, ask questions, write findings."])
              (e ++
                [str "WARNING: Plan created but .gitignore update failed.",
                 str "  Manually add plans/ to .gitignore."])
              0 := rfl
      rw [L, R, hcomm 9]
    | false =>
      have L : cmdNewCreate (FS.mk pde p fa da dirs gi) goal ts newName prev o e none false
          = CmdResult.mk
              { runCreation goal ts
                  (if (fa.isSome || da.isSome) = true then crossPlanNoteSeed else [])
                  newName 9 (FS.mk pde p fa da dirs gi) with
                pointer := some newName
                gitignore := some (ensureGitignore ((runCreation goal ts
                  (if (fa.isSome || da.isSome) = true then crossPlanNoteSeed else [])
                  newName 9 (FS.mk pde p fa da dirs gi)).gitignore.getD [])) }
              (o ++
                [str "Initialized plans/" ++ newName ++ str "/",
                 str "  Pointer: plans/.current_plan -> " ++ newName,
                 str "  Goal: " ++ goal,
                 str "  State: EXPLORE (iteration 0)",
                 str "  Cross-plan context: plans/FINDINGS.md, plans/DECISIONS.md",
                 str "  Next: Read code, ask questions, write findings."])
              (e ++ [])
              0 := rfl
      have R : cmdNewCreate (FS.mk pde pt fa da dirs gi) goal ts newName prev o e none false
          = CmdResult.mk
              { runCreation goal ts
                  (if (fa.isSome || da.isSome) = true then crossPlanNoteSeed else [])
                  newName 9 (FS.mk pde pt fa da dirs gi) with
                pointer := some newName
                gitignore := some (ensureGitignore ((runCreation goal ts
                  (if (fa.isSome || da.isSome) = true then crossPlanNoteSeed else [])
                  newName 9 (FS.mk pde pt fa da dirs gi)).gitignore.getD [])) }
              (o ++
                [str "Initialized plans/" ++ newName ++ str "/",
                 str "  Pointer: plans/.current_plan -> " ++ newName,
                 str "  Goal: " ++ goal,
                 str "  State: EXPLORE (iteration 0)",
                 str "  Cross-plan context: plans/FINDINGS.md, plans/DECISIONS.md",
                 str "  Next: Read code, ask questions, write findings."])
              (e ++ [])
              0 := rfl
      rw [L, R, hcomm 9]

theorem sameEffects_of_eq (r1 r2 : CmdResult) (h : r1 = r2) : sameEffects r1 r2 := by
  subst h
  exact ⟨rfl, rfl, rfl, rfl, rfl, rfl, rfl, rfl, rfl⟩

theorem readPointer_pde (fs : FS) (b : Bool) :
    readPointer { fs with plansDirExists := b } = readPointer fs := rfl

theorem readPointer_pointer_none (fs : FS) :
    readPointer ({ fs with pointer := none } : FS) = none := rfl

theorem cmdNew_pointer_none_eq (fs : FS) (goal ts newName : Content) (force : Bool)
    (failAt closeFailAt : Option Nat) (g : Bool)
    (h : readPointer { fs with plansDirExists := true } = none) :
    cmdNew fs goal ts newName force failAt closeFailAt g
      = cmdNew { fs with pointer := none } goal ts newName force failAt closeFailAt g := by
  have hN : readPointer { ({ fs with pointer := none } : FS) with plansDirExists := true }
      = none := rfl
  simp only [cmdNew, h, hN, Option.isSome_none, Bool.false_and, Bool.false_eq_true,
    if_false, ite_false, ite_self]
  exact cmdNewCreate_pointer_indep
    { fs with pointer := none, plansDirExists := true } fs.pointer goal ts newName none _ _
    failAt g

theorem readPlanFile_pointer_none (fs : FS) (n : Content) (f : PlanDir → Option Content) :
    readPlanFile ({ fs with pointer := none } : FS) n f = readPlanFile fs n f := rfl

/-- A filesystem whose pointer file names a plan directory that does not
exist under the plans root. -/
def danglingPointerFS : FS :=
  { plansDirExists := true, pointer := some (str "plan_ghost") }

/-- C5: `readPointer` returns `none` exactly when the pointer file is
absent (or unreadable, which reads the same), trims to empty content, or
names a plan directory that does not exist under the plans root; and on
any such filesystem every read-dependent command — `new`, `resume`,
`status`, `close`, `list` — has exactly the observable behaviour it has
when the pointer file is absent altogether. -/
theorem c5_pointer_self_healing (fs : FS) (goal ts newName : Content) (force : Bool)
    (failAt closeFailAt : Option Nat) (g silent : Bool) (mergeFailAt : Option Nat) :
    (readPointer fs = none ↔
       fs.pointer = none ∨ ∃ raw, fs.pointer = some raw ∧
         (trimL raw = [] ∨ planExists fs (trimL raw) = false)) ∧
    (readPointer fs = none →
      sameEffects (cmdNew fs goal ts newName force failAt closeFailAt g)
          (cmdNew { fs with pointer := none } goal ts newName force failAt closeFailAt g) ∧
      sameEffects (cmdResume fs) (cmdResume { fs with pointer := none }) ∧
      sameEffects (cmdStatus fs) (cmdStatus { fs with pointer := none }) ∧
      sameEffects (cmdClose fs silent mergeFailAt)
          (cmdClose { fs with pointer := none } silent mergeFailAt) ∧
      sameEffects (cmdList fs) (cmdList { fs with pointer := none })) := by
  constructor
  · constructor
    · intro h0
      cases hp : fs.pointer with
      | none => exact Or.inl rfl
      | some raw =>
        refine Or.inr ⟨raw, rfl, ?_⟩
        unfold readPointer at h0
        rw [hp] at h0
        simp only [] at h0
        by_cases he : trimL raw = []
        · exact Or.inl he
        · refine Or.inr ?_
          cases hq : planExists fs (trimL raw) with
          | false => rfl
          | true =>
            rw [hq] at h0
            have hne : (trimL raw).isEmpty = false := by
              cases hk : (trimL raw).isEmpty with
              | false => rfl
              | true => exact absurd (by simpa using hk) he
            rw [hne] at h0
            simp at h0
    · intro h0
      rcases h0 with hnone | ⟨raw, hraw, hbad⟩
      · unfold readPointer; rw [hnone]
      · unfold readPointer
        rw [hraw]
        simp only []
        rcases hbad with he | hpe
        · rw [he]; simp
        · rw [hpe]; simp
  · intro h0
    have hPde : readPointer { fs with plansDirExists := true } = none := by
      rw [readPointer_pde]; exact h0
    have hsN : readPointer ({ fs with pointer := none } : FS) = none := rfl
    refine ⟨sameEffects_of_eq _ _
      (cmdNew_pointer_none_eq fs goal ts newName force failAt closeFailAt g hPde),
      ?_, ?_, ?_, ?_⟩
    · refine ⟨?_, ?_, ?_, ?_, ?_, ?_, ?_, ?_, ?_⟩ <;> simp [cmdResume, h0, hsN]
    · refine ⟨?_, ?_, ?_, ?_, ?_, ?_, ?_, ?_, ?_⟩ <;> simp [cmdStatus, h0, hsN]
    · refine ⟨?_, ?_, ?_, ?_, ?_, ?_, ?_, ?_, ?_⟩ <;>
        (simp [cmdClose, h0, hsN]; try (split <;> simp [h0, hsN]))
    · refine ⟨?_, ?_, ?_, ?_, ?_, ?_, ?_, ?_, ?_⟩ <;>
        (simp [cmdList, h0, hsN, readPlanFile_pointer_none]; try (split <;> (try split) <;> simp [h0, hsN, readPlanFile_pointer_none]))

theorem c5_pointer_self_healing_witness :
    readPointer danglingPointerFS = none ∧
    sameEffects (cmdResume danglingPointerFS)
      (cmdResume { danglingPointerFS with pointer := none }) :=
  ⟨rfl,
    ((c5_pointer_self_healing danglingPointerFS (str "g") (str "t") (str "plan_n")
        false none none false false none).2 rfl).2.1⟩

/-- A filesystem whose active plan has a decisions document containing
no second-level heading at all (only a first-level preamble). -/
def noH2PlanFS : FS :=
  { plansDirExists := true
    pointer := some (str "plan_x")
    planDirs := [(str "plan_x",
      { decisionsFile := some (str "# Decision Log\nWe chose X.\n") })] }

theorem c1_merge_extraction_counterexample :
    hasH2 (str "# Decision Log\nWe chose X.\n") = false ∧
    containsSub (str "# Decision Log")
      (((cmdClose noH2PlanFS false none).fs.decisionsArch).getD []) = true := by
  set_option maxRecDepth 10000 in decide

/-- A filesystem whose active plan's decisions document is exactly the
seeded cross-plan note, which the merge transformation reduces to
nothing. -/
def noteOnlyPlanFS : FS :=
  { plansDirExists := true
    pointer := some (str "plan_x")
    planDirs := [(str "plan_x", { decisionsFile := some crossPlanNoteSeed })] }

/-- A filesystem whose active plan's decisions document is caller
content beginning with a second-level heading. -/
def authoredPlanFS : FS :=
  { plansDirExists := true
    pointer := some (str "plan_x")
    planDirs := [(str "plan_x", { decisionsFile := some (str "## D-1\nChose X.") })] }

/-- Replace the consolidated decisions archive. -/
def setDecisionsArch (fs : FS) (a : Content) : FS := { fs with decisionsArch := some a }

/-- Replace the consolidated findings archive. -/
def setFindingsArch (fs : FS) (a : Content) : FS := { fs with findingsArch := some a }

/-- C1 (corrected): when the per-plan document contains a second-level
heading, the merge keeps exactly the lines from the first such heading
onward and discards the preamble; the seeded cross-plan note is
stripped, and a plan section is added to the archive only when the
transformed content is non-empty — but when the document contains no
second-level heading at all, `stripHeader` returns it unchanged, so its
entire content (preamble included) is merged rather than discarded. -/
theorem c1_merge_extraction :
    (∀ c, hasH2 c = true → stripHeader c = fromFirstH2 c) ∧
    (∀ c, hasH2 c = false → stripHeader c = c) ∧
    (∀ fs n c, readPlanFile fs n PlanDir.decisionsFile = some c →
       decisionsTransform c = [] → mergeDecisionsStep fs n = fs) ∧
    (∀ fs n c, readPlanFile fs n PlanDir.decisionsFile = some c → c ≠ [] →
       decisionsTransform c ≠ [] →
       mergeDecisionsStep fs n
         = setDecisionsArch fs
             (prependToConsolidated (fs.decisionsArch.getD []) n (decisionsTransform c))) ∧
    (∀ fs n c, readPlanFile fs n PlanDir.findingsFile = some c →
       findingsTransform n c = [] → mergeFindingsStep fs n = fs) ∧
    (∀ fs n c, readPlanFile fs n PlanDir.findingsFile = some c → c ≠ [] →
       findingsTransform n c ≠ [] →
       mergeFindingsStep fs n
         = setFindingsArch fs
             (prependToConsolidated (fs.findingsArch.getD []) n (findingsTransform n c))) ∧
    containsSub crossNote (decisionsTransform (decisionsTemplate crossPlanNoteSeed)) = false := by
  refine ⟨?_, ?_, ?_, ?_, ?_, ?_, ?_⟩
  · intro c h
    unfold stripHeader fromFirstH2
    simp only []
    rw [show (splitLines c).any startsH2 = true from h]
    simp
  · intro c h
    unfold stripHeader
    simp only []
    rw [show (splitLines c).any startsH2 = false from h]
    simp
  · intro fs n c hread htr
    unfold mergeDecisionsStep
    rw [hread]
    simp only []
    by_cases he : c.isEmpty
    · rw [he]; simp
    · rw [show c.isEmpty = false from by simpa using he]
      simp [htr]
  · intro fs n c hread hne htr
    unfold mergeDecisionsStep
    rw [hread]
    simp only []
    rw [show c.isEmpty = false from by simpa using hne]
    simp only [Bool.false_eq_true, if_false, ite_false]
    rw [show (decisionsTransform c).isEmpty = false from by simpa using htr]
    simp [setDecisionsArch]
  · intro fs n c hread htr
    unfold mergeFindingsStep
    rw [hread]
    simp only []
    by_cases he : c.isEmpty
    · rw [he]; simp
    · rw [show c.isEmpty = false from by simpa using he]
      simp [htr]
  · intro fs n c hread hne htr
    unfold mergeFindingsStep
    rw [hread]
    simp only []
    rw [show c.isEmpty = false from by simpa using hne]
    simp only [Bool.false_eq_true, if_false, ite_false]
    rw [show (findingsTransform n c).isEmpty = false from by simpa using htr]
    simp [setFindingsArch]
  · set_option maxRecDepth 10000 in decide

theorem c1_merge_extraction_witness :
    stripHeader (str "# Decision Log\n## D-1\nChose X.")
      = fromFirstH2 (str "# Decision Log\n## D-1\nChose X.") ∧
    stripHeader (str "# Decision Log\nWe chose X.\n") = str "# Decision Log\nWe chose X.\n" ∧
    mergeDecisionsStep noteOnlyPlanFS (str "plan_x") = noteOnlyPlanFS ∧
    mergeDecisionsStep authoredPlanFS (str "plan_x")
      = setDecisionsArch authoredPlanFS
          (prependToConsolidated ((authoredPlanFS.decisionsArch).getD []) (str "plan_x")
            (decisionsTransform (str "## D-1\nChose X."))) :=
  ⟨c1_merge_extraction.1 _ (by decide),
   c1_merge_extraction.2.1 _ (by decide),
   c1_merge_extraction.2.2.1 noteOnlyPlanFS (str "plan_x") crossPlanNoteSeed
     (by decide) (by set_option maxRecDepth 2000 in decide),
   c1_merge_extraction.2.2.2.1 authoredPlanFS (str "plan_x") (str "## D-1\nChose X.")
     (by decide) (by decide) (by decide)⟩

theorem splitLines_ne_nil (c : Content) : splitLines c ≠ [] := by
  cases c with
  | nil => simp [splitLines]
  | cons a rest =>
    unfold splitLines
    split
    · simp
    · cases hs : splitLines rest <;> simp

theorem splitLines_no_nl (c : Content) : ∀ l ∈ splitLines c, '\n' ∉ l := by
  induction c with
  | nil => intro l hl; simp [splitLines] at hl; simp [hl]
  | cons a rest ih =>
    intro l hl
    unfold splitLines at hl
    by_cases ha : a = '\n'
    · rw [if_pos ha] at hl
      rcases List.mem_cons.mp hl with h1 | h2
      · simp [h1]
      · exact ih l h2
    · rw [if_neg ha] at hl
      cases hs : splitLines rest with
      | nil => exact absurd hs (splitLines_ne_nil rest)
      | cons l0 ls =>
        rw [hs] at hl
        rcases List.mem_cons.mp hl with h1 | h2
        · subst h1
          intro hmem
          rcases List.mem_cons.mp hmem with h3 | h4
          · exact ha h3.symm
          · exact ih l0 (hs ▸ List.mem_cons_self l0 ls) h4
        · exact ih l (hs ▸ List.mem_cons_of_mem l0 h2)

theorem splitLines_single (l : Content) (h : '\n' ∉ l) : splitLines l = [l] := by
  induction l with
  | nil => rfl
  | cons a rest ih =>
    have ha : a ≠ '\n' := fun he => h (he ▸ List.mem_cons_self a rest)
    have hr : '\n' ∉ rest := fun hm => h (List.mem_cons_of_mem a hm)
    unfold splitLines
    rw [if_neg ha, ih hr]

theorem splitLines_append_nl (l t : Content) (h : '\n' ∉ l) :
    splitLines (l ++ '\n' :: t) = l :: splitLines t := by
  induction l with
  | nil => simp [splitLines]
  | cons a rest ih =>
    have ha : a ≠ '\n' := fun he => h (he ▸ List.mem_cons_self a rest)
    have hr : '\n' ∉ rest := fun hm => h (List.mem_cons_of_mem a hm)
    show splitLines (a :: (rest ++ '\n' :: t)) = (a :: rest) :: splitLines t
    simp only [splitLines]
    rw [if_neg ha, ih hr]

theorem splitLines_joinLines (ls : List Content) (hne : ls ≠ [])
    (h : ∀ l ∈ ls, '\n' ∉ l) : splitLines (joinLines ls) = ls := by
  induction ls with
  | nil => exact absurd rfl hne
  | cons l rest ih =>
    cases rest with
    | nil =>
      show splitLines (joinLines [l]) = [l]
      unfold joinLines
      exact splitLines_single l (h l (List.mem_cons_self l []))
    | cons l2 rest2 =>
      show splitLines (l ++ '\n' :: joinLines (l2 :: rest2)) = l :: l2 :: rest2
      rw [splitLines_append_nl l _ (h l (List.mem_cons_self l _))]
      rw [ih (by simp) (fun x hx => h x (List.mem_cons_of_mem l hx))]

theorem demoteLine_no_nl (l : Content) (h : '\n' ∉ l) : '\n' ∉ demoteLine l := by
  unfold demoteLine
  split
  · intro hmem
    rcases List.mem_append.mp hmem with h1 | h2
    · simp [str] at h1
    · exact h (List.drop_subset 3 l h2)
  · exact h

theorem demoteLine_of_H2 (l : Content) (h : startsH2 l = true) : demoteLine l = '#' :: l := by
  unfold startsH2 str at h
  match l with
  | [] => simp [List.isPrefixOf] at h
  | [a] => simp [List.isPrefixOf] at h
  | [a, b] => simp [List.isPrefixOf] at h
  | a :: b :: c :: rest =>
    simp only [List.isPrefixOf, List.isPrefixOf_nil_left, Bool.and_true, Bool.and_eq_true,
      beq_iff_eq] at h
    obtain ⟨ha, hb, hc⟩ := h
    subst ha; subst hb; subst hc
    simp [demoteLine, startsH2, str, List.isPrefixOf]

theorem demoteLine_not_H2 (l : Content) : startsH2 (demoteLine l) = false := by
  unfold demoteLine
  cases hs : startsH2 l with
  | true =>
    rw [if_pos rfl]
    show startsH2 ('#' :: '#' :: '#' :: ' ' :: l.drop 3) = false
    unfold startsH2 str
    simp [List.isPrefixOf]
  | false => rw [if_neg (by simp)]; exact hs

/-- A filesystem whose active plan authored findings content with a
second-level heading and a relative link into the plan's own findings
subdirectory. -/
def linkedFindingsFS : FS :=
  { plansDirExists := true
    pointer := some (str "plan_a")
    planDirs := [(str "plan_a",
      { findingsFile := some (str "## Index\n[x](findings/a.md)") })] }

/-- The consolidated findings archive after closing that plan. -/
def linkedFindingsArch : Content :=
  ((cmdClose linkedFindingsFS false none).fs.findingsArch).getD []

/-- C3: the merge demotion is exactly per-line — the demoted content's
lines are the original lines with every `"## "`-prefixed line rewritten
to `"### "` (one `#` prepended) and no line of the demoted content still
starts a second-level heading — and in the concrete scenario of closing
a plan `plan_a` whose findings contain `## Index` and a relative link
`[x](findings/a.md)`, the consolidated findings archive contains
`### Index` and the link rewritten to `(plan_a/findings/a.md)`, and no
longer contains the original un-rewritten link. -/
theorem c3_demote_and_rewrite_links :
    (∀ s, splitLines (demoteH2 s) = (splitLines s).map demoteLine) ∧
    (∀ l, startsH2 l = true → demoteLine l = '#' :: l) ∧
    (∀ l, startsH2 (demoteLine l) = false) ∧
    containsSub (str "### Index") linkedFindingsArch = true ∧
    containsSub (str "(plan_a/findings/a.md)") linkedFindingsArch = true ∧
    containsSub (str "[x](findings/a.md)") linkedFindingsArch = false := by
  refine ⟨?_, demoteLine_of_H2, demoteLine_not_H2, ?_, ?_, ?_⟩
  · intro s
    unfold demoteH2
    refine splitLines_joinLines _ ?_ ?_
    · intro hmap
      exact splitLines_ne_nil s (List.map_eq_nil_iff.mp hmap)
    · intro l hl
      rcases List.mem_map.mp hl with ⟨l0, hl0, hd⟩
      exact hd ▸ demoteLine_no_nl l0 (splitLines_no_nl s l0 hl0)
  · set_option maxRecDepth 10000 in decide
  · set_option maxRecDepth 10000 in decide
  · set_option maxRecDepth 10000 in decide

theorem c3_demote_and_rewrite_links_witness :
    demoteLine (str "## Index") = '#' :: str "## Index" :=
  c3_demote_and_rewrite_links.2.1 (str "## Index") (by decide)

theorem splitLines_nl_append (x y : Content) :
    splitLines (x ++ '\n' :: y) = splitLines x ++ splitLines y := by
  induction x with
  | nil => simp [splitLines]
  | cons a rest ih =>
    by_cases ha : a = '\n'
    · subst ha
      show splitLines ('\n' :: (rest ++ '\n' :: y)) = splitLines ('\n' :: rest) ++ splitLines y
      simp only [splitLines, if_pos rfl]
      rw [ih]
      rfl
    · show splitLines (a :: (rest ++ '\n' :: y)) = splitLines (a :: rest) ++ splitLines y
      simp only [splitLines]
      rw [if_neg ha, if_neg ha, ih]
      cases hs : splitLines rest with
      | nil => exact absurd hs (splitLines_ne_nil rest)
      | cons m ms => rfl

theorem countPatternLines_nl_append (x y : Content) :
    countPatternLines (x ++ '\n' :: y) = countPatternLines x + countPatternLines y := by
  unfold countPatternLines
  rw [splitLines_nl_append, List.filter_append, List.length_append]

theorem any_pattern_of_count_pos (c : Content) (h : countPatternLines c ≠ 0) :
    (splitLines c).any (fun line => trimL line == gitignorePattern) = true := by
  unfold countPatternLines at h
  rcases List.exists_mem_of_length_pos (Nat.pos_of_ne_zero h) with ⟨l, hl⟩
  rcases List.mem_filter.mp hl with ⟨hmem, hp⟩
  exact List.any_eq_true.mpr ⟨l, hmem, hp⟩

theorem count_zero_of_not_any (c : Content)
    (h : (splitLines c).any (fun line => trimL line == gitignorePattern) = false) :
    countPatternLines c = 0 := by
  unfold countPatternLines
  rw [List.length_eq_zero]
  rw [List.filter_eq_nil_iff]
  intro l hl
  intro hp
  rw [List.any_eq_false] at h
  exact h l hl hp

theorem ensureGitignore_of_found (c : Content)
    (h : (splitLines c).any (fun line => trimL line == gitignorePattern) = true) :
    ensureGitignore c = c := by
  unfold ensureGitignore
  rw [if_pos h]

theorem ensureGitignore_count (c : Content) :
    countPatternLines (ensureGitignore c) = max 1 (countPatternLines c) := by
  unfold ensureGitignore
  split
  · rename_i hcond
    rcases List.any_eq_true.mp hcond with ⟨l, hmem, hp⟩
    have hpos : 1 ≤ countPatternLines c := by
      unfold countPatternLines
      have : l ∈ (splitLines c).filter (fun line => trimL line == gitignorePattern) :=
        List.mem_filter.mpr ⟨hmem, hp⟩
      exact List.length_pos.mpr (fun he => by rw [he] at this; exact List.not_mem_nil l this)
    omega
  · rename_i hcond
    have h0 : countPatternLines c = 0 :=
      count_zero_of_not_any c (Bool.eq_false_iff.mpr hcond)
    rw [h0]
    by_cases hc : (!c.isEmpty && !(c.getLast? == some '\n')) = true
    · rw [if_pos hc]
      rw [List.append_assoc, List.append_assoc]
      rw [show (['\n'] ++ (gitignorePattern ++ ['\n']) : Content)
            = '\n' :: (gitignorePattern ++ ['\n']) from rfl]
      rw [countPatternLines_nl_append, h0]
      decide
    · rw [if_neg hc]
      by_cases hce : c = []
      · subst hce; decide
      · have hlast : c.getLast? = some '\n' := by
          rw [Bool.and_eq_true, Bool.not_eq_true', Bool.not_eq_true'] at hc
          rcases Decidable.not_and_iff_or_not.mp hc with h1 | h2
          · exact absurd (List.isEmpty_eq_false.mpr hce) h1
          · refine beq_iff_eq.mp ?_
            cases hb : (c.getLast? == some '\n') with
            | true => rfl
            | false => exact absurd hb h2
        have hgl : c.getLast hce = '\n' := by
          have := List.getLast?_eq_getLast c hce
          rw [hlast] at this
          exact (Option.some.injEq _ _).mp this.symm
        have hd : c.dropLast ++ ['\n'] = c := by
          rw [← hgl]
          exact List.dropLast_append_getLast hce
        conv_lhs => rw [← hd]
        rw [List.append_nil, List.append_assoc, List.append_assoc]
        rw [show (['\n'] ++ (gitignorePattern ++ ['\n']) : Content)
              = '\n' :: (gitignorePattern ++ ['\n']) from rfl]
        rw [countPatternLines_nl_append]
        have hdz : countPatternLines c.dropLast = 0 := by
          rw [← hd] at h0
          rw [show (c.dropLast ++ ['\n'] : Content) = c.dropLast ++ '\n' :: [] from rfl] at h0
          rw [countPatternLines_nl_append] at h0
          omega
        rw [hdz]
        decide

theorem ensureGitignore_append_only (c : Content) :
    ∃ suffix, ensureGitignore c = c ++ suffix := by
  unfold ensureGitignore
  split
  · exact ⟨[], by simp⟩
  · exact ⟨_, by rw [List.append_assoc, List.append_assoc]⟩

theorem ensureGitignore_idem (c : Content) :
    ensureGitignore (ensureGitignore c) = ensureGitignore c := by
  apply ensureGitignore_of_found
  apply any_pattern_of_count_pos
  rw [ensureGitignore_count]
  omega

/-- A filesystem whose ignore file already holds two duplicate pattern
lines before any plan is created. -/
def dupGitignoreFS : FS :=
  { plansDirExists := true, gitignore := some (str "plans/\nplans/\n") }

/-- C9 (corrected): the ignore-file update is append-only (pre-existing
content is preserved verbatim as a prefix), idempotent, and never adds a
pattern line when one is already present — the pattern count of the
result is exactly `max 1` of the existing count.  The original at-most-
one-occurrence claim is refuted separately: pre-existing duplicate
pattern lines are preserved, not deduplicated. -/
theorem c9_gitignore_append_only_idempotent :
    (∀ c, ∃ suffix, ensureGitignore c = c ++ suffix) ∧
    (∀ c, countPatternLines (ensureGitignore c) = max 1 (countPatternLines c)) ∧
    (∀ c, ensureGitignore (ensureGitignore c) = ensureGitignore c) ∧
    (∀ fs silent mergeFailAt,
      (cmdClose fs silent mergeFailAt).fs.gitignore = fs.gitignore) :=
  ⟨ensureGitignore_append_only, ensureGitignore_count, ensureGitignore_idem,
   fun fs silent mergeFailAt => ((cmdClose_frame fs silent mergeFailAt).2).1⟩

theorem c9_gitignore_counterexample :
    countPatternLines (str "plans/\nplans/\n") = 2 ∧
    ensureGitignore (str "plans/\nplans/\n") = str "plans/\nplans/\n" ∧
    (cmdNew dupGitignoreFS (str "g") (str "t") (str "plan_n")
        false none none false).fs.gitignore = some (str "plans/\nplans/\n") := by
  set_option maxRecDepth 20000 in decide
